import Mathlib

/-!
# ScryGo: the bulk-data downloader of `scrydownload.go`

A shallow embedding of the functions `CatRulings`, `PromptYN`, `path_exists`,
`DownloadFile`, `ParseJSONList` and `DownloadBulkData`.

The program is sequential I/O.  Every call into the operating system, the
network, the console or a Go library is modelled by

* an *oracle*: the answer that call gives in a particular run (a field of
  `CatEnv`, `FetchEnv` or `World`), and
* an *event*: the record that the call was made, with its arguments
  (`Event`), appended to the trace the function returns.

A function of the program becomes a function from the oracles of a run to the
pair of its result and its trace.

A Go `error` is `Option Error` (`none` is `nil`).  Errors built by the program
with `errors.New` are `Error.New msg`; errors handed back by the operating
system or a library are `Error.Sys code`.

The console is the list of the texts that the successive reads return; after
the last one it is at end of input.  `PromptYN` recurses on that list, so every
run of the model ends: by a return or by the panic of `text[0]`.

Time is an instant in nanoseconds on an unbounded integer axis; `Time.Sub`
saturates as the library does, and `Hours` is kept exact.

Layout of the file: the embedding, the predicates on traces, sample runs,
lemmas, and then the theorems of the claims, in the order of the claims.
-/

namespace ScryGo

/-! ## Constants (lines 17-21) -/

def BulkLocation : String := "https://api.scryfall.com/bulk-data/"
def BulkLog : String := "ScryGoBulk.info"
def SaveLocation : String := "D:/Scryfall/"

/-! ## Errors, outcomes, events -/

/-- Error number carried by an error that comes from outside the program. -/
abbrev Errno := Nat

/-- Go error values met by the program. -/
inductive Error where
  /-- The value of `errors.New(msg)`. -/
  | New (msg : String)
  /-- An error returned by the operating system or by a library call. -/
  | Sys (code : Errno)
  deriving DecidableEq, Repr

/-- Error number of "no such file or directory". -/
def ENOENT : Errno := 2

/-- The test `os.IsNotExist(err)`. -/
def IsNotExist : Error → Bool
  | .Sys code => code == ENOENT
  | .New _ => false

/-- The Go `error` returned by a call whose oracle is `o` (`none` is `nil`). -/
def sysErr (o : Option Errno) : Option Error := o.map Error.Sys

/-- How a function call ends: it returns a value, or the run-time panics. -/
inductive Outcome (α : Type) where
  | ret (a : α)
  | panic (msg : String)
  deriving DecidableEq, Repr

/-- The record `Ruling` (lines 341-347). -/
structure Ruling where
  ObjectType : String
  Oracle_ID : String
  Source : String
  Published_At : String
  Comment : String
  deriving DecidableEq, Repr

/-- The calls the program makes, with their arguments, whatever their result. -/
inductive Event where
  /-- The call `os.Stat(name)`. -/
  | osStat (name : String)
  /-- The call `os.Open(name)`. -/
  | osOpen (name : String)
  /-- The call `ioutil.ReadAll(file)` on the open file `name`. -/
  | readAllFile (name : String)
  /-- The deferred `file.Close()` / `out.Close()` of the file `name`. -/
  | closeFile (name : String)
  /-- The call `fmt.Print(text)`. -/
  | fmtPrint (text : String)
  /-- The call `reader.ReadString('\n')` on a reader of `os.Stdin`. -/
  | stdinReadString
  /-- The call `http.Get(url)`. -/
  | httpGet (url : String)
  /-- The call `ioutil.ReadAll(resp.Body)` on the response of `url`. -/
  | readAllBody (url : String)
  /-- The deferred `resp.Body.Close()` on the response of `url`. -/
  | closeBody (url : String)
  /-- Entry into `DownloadFile(path, url)` (a marker, not a system call). -/
  | callDownloadFile (path url : String)
  /-- The call `os.MkdirAll(filepath.Dir(path), os.ModePerm)`. -/
  | osMkdirAllDir (path : String)
  /-- The call `os.Create(name)`. -/
  | osCreate (name : String)
  /-- The call `io.Copy(out, resp.Body)`: destination file and the body offered. -/
  | ioCopy (dst : String) (body : String)
  /-- The call `file.WriteString(s)` on the file `name`. -/
  | writeString (name : String) (s : String)
  /-- The call `fmt.Println(ruling)`. -/
  | fmtPrintlnRuling (ruling : Ruling)
  /-- The call `fmt.Println(err)`. -/
  | fmtPrintlnError (err : Error)
  deriving DecidableEq, Repr

/-! ## Time (the parts of Go's `time` package the program uses) -/

/-- An instant: nanoseconds since the Unix epoch. -/
structure Time where
  unixNano : Int
  deriving DecidableEq, Repr

/-! A `time.Duration` is a count of nanoseconds held in an `int64`; it is an
`Int` here, and `Time.Sub` keeps it within the `int64` range. -/

def Second : Int := 1000000000
def Hour : Int := 60 * 60 * Second
def minDuration : Int := -9223372036854775808
def maxDuration : Int := 9223372036854775807

/-- The zero value `time.Time{}`: January 1, year 1, 00:00:00 UTC. -/
def Time.zero : Time := ⟨-62135596800 * 1000000000⟩

/-- The method `t.Sub(u)`: the difference `t - u`, saturated to the range of a
`Duration` as the library documents. -/
def Time.Sub (t u : Time) : Int :=
  if t.unixNano - u.unixNano < minDuration then minDuration
  else if maxDuration < t.unixNano - u.unixNano then maxDuration
  else t.unixNano - u.unixNano

/-- The method `d.Hours()`: `hour := d / Hour; nsec := d % Hour;
float64(hour) + float64(nsec)/(60*60*1e9)`, with Go's truncating division.
The value is kept exact (a rational).  The program only compares it with `24`,
and the `float64` roundings do not change that comparison: `hour` is an
integer below `2^53`, and for `hour ≤ 23` the fraction is at most
`1 - 1/(3.6e12)`, which is further from `1` than the spacing of `float64`
near `24`. -/
def Hours (d : Int) : ℚ :=
  ((Int.tdiv d Hour : Int) : ℚ) + ((Int.tmod d Hour : Int) : ℚ) / (60 * 60 * 1000000000)

/-! ## A model of `Format` and `Parse` for the layout `time.UnixDate`

The layout is `"Mon Jan _2 15:04:05 MST 2006"`.  The two library functions are
oracles of a `World`; this section gives the instance for a machine whose
local zone is UTC, written after the documentation of Go's `time` package.
It is used to evaluate runs on concrete log contents.  Zone names other than
`UTC` (which Go resolves through the zone database of the machine) and
fractional seconds in the input are outside this model: `parseUnixDate`
reports them as errors. -/

def shortDayNames : List String := ["Sun", "Mon", "Tue", "Wed", "Thu", "Fri", "Sat"]

def shortMonthNames : List String :=
  ["Jan", "Feb", "Mar", "Apr", "May", "Jun", "Jul", "Aug", "Sep", "Oct", "Nov", "Dec"]

/-- The test `isLeap(year)` of the library. -/
def isLeap (year : Int) : Bool := year % 4 == 0 && (year % 100 != 0 || year % 400 == 0)

/-- The table `daysBefore` of the library: days of a common year before the
start of each month, and the length of the year. -/
def daysBefore : List Nat := [0, 31, 59, 90, 120, 151, 181, 212, 243, 273, 304, 334, 365]

/-- Year and day within the year (from 0) of the day number `days` counted
from 1970-01-01, in the proleptic Gregorian calendar; the steps are those of
`absDate` of the library, on days counted from 0001-01-01: cycles of 400, 100
and 4 years, then single years. -/
def yearDay (days : Int) : Int × Nat :=
  let d := days + 719162
  let n400 := d / 146097
  let d1 := (d % 146097).toNat
  let n100 := d1 / 36524 - d1 / 36524 / 4
  let d2 := d1 - 36524 * n100
  let n4 := d2 / 1461
  let d3 := d2 - 1461 * n4
  let n1 := d3 / 365 - d3 / 365 / 4
  let d4 := d3 - 365 * n1
  (400 * n400 + Int.ofNat (100 * n100 + 4 * n4 + n1) + 1, d4)

/-- Month (1-12) and day of the month of the day `day` (from 0) of a common
year, as `absDate` computes them: the month is estimated as `day / 31` and
corrected with the table. -/
def monthDayCommon (day : Nat) : Nat × Nat :=
  if daysBefore.getD (day / 31 + 1) 0 ≤ day then
    (day / 31 + 2, day - daysBefore.getD (day / 31 + 1) 0 + 1)
  else (day / 31 + 1, day - daysBefore.getD (day / 31) 0 + 1)

/-- Month (1-12) and day of the month of the day `yday` (from 0) of a year,
as `absDate` computes them: in a leap year the leap day is set apart and the
days after it are moved back by one. -/
def monthDay (leap : Bool) (yday : Nat) : Nat × Nat :=
  if leap && yday == 59 then (2, 29)
  else if leap && decide (59 < yday) then monthDayCommon (yday - 1)
  else monthDayCommon yday

/-- Year, month (1-12) and day (1-31) of the day number `days` counted from
1970-01-01. -/
def civilFromDays (days : Int) : Int × Nat × Nat :=
  ((yearDay days).1, monthDay (isLeap (yearDay days).1) (yearDay days).2)

/-- Days from 0001-01-01 to the first of January of `year`. -/
def daysSinceEpoch (year : Int) : Int :=
  let y := year - 1
  146097 * (y / 400) + 36524 * (y % 400 / 100) + 1461 * (y % 400 % 100 / 4)
    + 365 * (y % 400 % 100 % 4)

/-- Day number, counted from 1970-01-01, of the date `year`-`month`-`day`,
for a month from 1 to 12 (the function `Date` of the library). -/
def daysFromCivil (year : Int) (month day : Nat) : Int :=
  daysSinceEpoch year + Int.ofNat (daysBefore.getD (month - 1) 0)
    + (if isLeap year && decide (3 ≤ month) then 1 else 0) + (Int.ofNat day - 1) - 719162

/-- Number of days of `month` (1-12) in `year`. -/
def daysIn (month : Nat) (year : Int) : Nat :=
  if month == 2 && isLeap year then 29
  else daysBefore.getD month 0 - daysBefore.getD (month - 1) 0

/-- Decimal digits of `n`, lowest first, at most `fuel` of them. -/
def digitsRev : Nat → Nat → List Char
  | 0, _ => []
  | fuel + 1, n => if n < 10 then [Nat.digitChar n] else Nat.digitChar (n % 10) :: digitsRev fuel (n / 10)

/-- The decimal text of `n`, padded with zeros on the left to `width`
characters (`appendInt` of the library, for a value that is not negative). -/
def appendInt (n width : Nat) : List Char :=
  let ds := (digitsRev 20 n).reverse
  List.replicate (width - ds.length) '0' ++ ds

/-- Whole seconds since the Unix epoch of the instant `t` (rounded down). -/
def Time.unixSec (t : Time) : Int := t.unixNano / 1000000000

/-- The instant `t` without its part below the second. -/
def Time.truncSecond (t : Time) : Time := ⟨t.unixSec * 1000000000⟩

/-- The text `t.Format(time.UnixDate)` in zone UTC, for a year from 0 on. -/
def formatUnixDate (t : Time) : String :=
  let days := t.unixSec / 86400
  let secs := (t.unixSec % 86400).toNat
  let (year, month, day) := civilFromDays days
  let weekday := ((days + 4) % 7).toNat
  String.mk (
    (shortDayNames.getD weekday "").data ++ [' ']
    ++ (shortMonthNames.getD (month - 1) "").data ++ [' ']
    ++ (if day < 10 then [' '] else []) ++ appendInt day 0 ++ [' ']
    ++ appendInt (secs / 3600) 2 ++ [':']
    ++ appendInt (secs / 60 % 60) 2 ++ [':']
    ++ appendInt (secs % 60) 2 ++ [' ']
    ++ "UTC".data ++ [' ']
    ++ appendInt year.toNat 4)

/-- Error number used for a text that `time.Parse` rejects. -/
def parseError : Errno := 1000

/-- Comparison of two characters without regard to the case of letters. -/
def matchChar (c1 c2 : Char) : Bool := c1 == c2 || (c1.isAlpha && c1.toLower == c2.toLower)

/-- Comparison of two texts of equal length without regard to case. -/
def matchChars : List Char → List Char → Bool
  | [], [] => true
  | c1 :: s1, c2 :: s2 => matchChar c1 c2 && matchChars s1 s2
  | _, _ => false

/-- First entry of `tab` (numbered from `i`) that heads `value`, and the rest of `value`. -/
def lookup : List String → Nat → List Char → Option (Nat × List Char)
  | [], _, _ => none
  | v :: tab, i, value =>
    if v.length ≤ value.length && matchChars (value.take v.length) v.data then
      some (i, value.drop v.length)
    else lookup tab (i + 1) value

/-- A blank of the layout: `value` must be empty or start with a blank, and
all its leading blanks are dropped. -/
def skipSpace : List Char → Option (List Char)
  | [] => some []
  | c :: value => if c = ' ' then some ((c :: value).dropWhile (· = ' ')) else none

/-- A character of the layout that is not a blank: `value` must start with it. -/
def skipChar (p : Char) : List Char → Option (List Char)
  | [] => none
  | c :: value => if c = p then some value else none

/-- A number of one or two digits (two when `fixed`) at the head of the text. -/
def getnum (fixed : Bool) : List Char → Option (Nat × List Char)
  | [] => none
  | c0 :: value =>
    if !c0.isDigit then none
    else match value with
      | [] => if fixed then none else some (c0.toNat - 48, [])
      | c1 :: rest =>
        if !c1.isDigit then (if fixed then none else some (c0.toNat - 48, c1 :: rest))
        else some ((c0.toNat - 48) * 10 + (c1.toNat - 48), rest)

/-- The four digits of the year at the head of the text. -/
def getYear : List Char → Option (Nat × List Char)
  | c0 :: c1 :: c2 :: c3 :: rest =>
    if c0.isDigit && c1.isDigit && c2.isDigit && c3.isDigit then
      some ((c0.toNat - 48) * 1000 + (c1.toNat - 48) * 100 + (c2.toNat - 48) * 10
        + (c3.toNat - 48), rest)
    else none
  | _ => none

/-- The zone name `UTC` at the head of the text. -/
def getUTC (value : List Char) : Option (List Char) :=
  if value.take 3 = "UTC".data then some (value.drop 3) else none

/-- The range checks of `time.Parse` on the fields it has read. -/
def fieldsInRange (year month day hour min sec : Nat) : Bool :=
  decide (hour < 24) && decide (min < 60) && decide (sec < 60)
    && decide (1 ≤ day) && decide (day ≤ daysIn month (Int.ofNat year))

/-- The part `Mon Jan _2` of the layout: month, day and the rest of the text.
The name of the weekday is read and not used further. -/
def parseDatePart (value : List Char) : Option ((Nat × Nat) × List Char) :=
  (lookup shortDayNames 0 value).bind fun wd =>
  (skipSpace wd.2).bind fun v1 =>
  (lookup shortMonthNames 1 v1).bind fun mo =>
  (skipSpace mo.2).bind fun v2 =>
  (getnum false v2).bind fun dy =>
  some ((mo.1, dy.1), dy.2)

/-- The part ` 15:04:05` of the layout: hour, minute, second and the rest. -/
def parseClockPart (value : List Char) : Option ((Nat × Nat × Nat) × List Char) :=
  (skipSpace value).bind fun v3 =>
  (getnum false v3).bind fun hr =>
  (skipChar ':' hr.2).bind fun v4 =>
  (getnum true v4).bind fun mi =>
  (skipChar ':' mi.2).bind fun v5 =>
  (getnum true v5).bind fun sc =>
  some ((hr.1, mi.1, sc.1), sc.2)

/-- The part ` MST 2006` of the layout: the year and the rest of the text. -/
def parseZoneYearPart (value : List Char) : Option (Nat × List Char) :=
  (skipSpace value).bind fun v6 =>
  (getUTC v6).bind fun v7 =>
  (skipSpace v7).bind fun v8 =>
  getYear v8

/-- The fields of a text in the layout `time.UnixDate`, read from left to
right as `time.Parse` does: year, month, day, hour, minute, second.  Text
left over after the year, or a field out of range, is an error. -/
def parseFields (value : List Char) : Option (Nat × Nat × Nat × Nat × Nat × Nat) :=
  (parseDatePart value).bind fun dt =>
  (parseClockPart dt.2).bind fun ck =>
  (parseZoneYearPart ck.2).bind fun yr =>
  if yr.2.isEmpty && fieldsInRange yr.1 dt.1.1 dt.1.2 ck.1.1 ck.1.2.1 ck.1.2.2 then
    some (yr.1, dt.1.1, dt.1.2, ck.1.1, ck.1.2.1, ck.1.2.2)
  else none

/-- The result of `time.Parse(time.UnixDate, value)` in zone UTC. -/
def parseUnixDate (value : String) : Except Errno Time :=
  match parseFields value.data with
  | some (year, month, day, hour, min, sec) =>
    .ok ⟨(daysFromCivil (Int.ofNat year) month day * 86400
      + Int.ofNat (hour * 3600 + min * 60 + sec)) * 1000000000⟩
  | none => .error parseError

/-! ## The console prompt (lines 166-177) -/

/-- Message of the run-time panic raised by `text[0]` on an empty string. -/
def indexPanic : String := "runtime error: index out of range [0] with length 0"

/-- The function `PromptYN(prompt)`.  The argument `stdin` lists what the
successive calls of `reader.ReadString('\n')` return; once it is exhausted
the console is at end of input and the read returns the empty string (its
error is discarded by `text, _ :=`).  The expression `text[0]` is the first
byte of `text`; the bytes `'y'` and `'n'` are ASCII, so comparing the first
character is the same test. -/
def PromptYN (prompt : String) : List String → Outcome Bool × List Event
  | [] => (.panic indexPanic, [.fmtPrint (prompt ++ " [y/n]: "), .stdinReadString])
  | text :: rest =>
    match text.data with
    | [] => (.panic indexPanic, [.fmtPrint (prompt ++ " [y/n]: "), .stdinReadString])
    | c :: _ =>
      if c = 'y' then (.ret true, [.fmtPrint (prompt ++ " [y/n]: "), .stdinReadString])
      else if c = 'n' then (.ret false, [.fmtPrint (prompt ++ " [y/n]: "), .stdinReadString])
      else
        ((PromptYN prompt rest).1,
          [.fmtPrint (prompt ++ " [y/n]: "), .stdinReadString] ++ (PromptYN prompt rest).2)

/-! ## The JSON records read by the program (lines 179-316) -/

/-- The record `JSONElement`.  Of its fields the program reads `Name` and
`Download_URI` only; the others are kept out of the model. -/
structure JSONElement where
  Name : String
  Download_URI : String
  deriving DecidableEq, Repr

/-- The record `List` of the source (lines 309-316); it is named `ListObject`
here because `List` is Lean's own list type. -/
structure ListObject where
  ObjectType : String
  Data : List JSONElement
  Has_More : Bool
  Next_Page : String
  Total_Cards : Int
  Warnings : List String
  deriving DecidableEq, Repr

/-- The function `ParseJSONList(response)` (lines 557-564).  The library call
`json.Unmarshal(response, &blob)` is the oracle `unmarshal`: it yields the
decoded record or the decoder's error. -/
def ParseJSONList (unmarshal : String → Except Errno ListObject) (response : String) :
    ListObject × Option Error :=
  match unmarshal response with
  | .error err => (⟨"", [], false, "", 0, []⟩, some (.Sys err))
  | .ok blob => (blob, none)

/-! ## The file fetcher (lines 566-609) -/

/-- An HTTP response as the program sees it: `resp.StatusCode` (which the
program never reads) and the content that `resp.Body` delivers. -/
structure Response where
  StatusCode : Nat
  Body : String
  deriving DecidableEq, Repr

/-- What one call of `DownloadFile` meets: the result of each call it makes. -/
structure FetchEnv where
  /-- Result of `http.Get(url)`. -/
  get : Except Errno Response
  /-- Error of `os.Stat(path)` inside `path_exists`. -/
  stat : Option Errno
  /-- Error of `os.MkdirAll(filepath.Dir(path), os.ModePerm)`. -/
  mkdirAll : Option Errno
  /-- Error of `os.Create(path)`. -/
  create : Option Errno
  /-- Error of `io.Copy(out, resp.Body)`. -/
  copy : Option Errno

/-- The function `path_exists(path)` (lines 600-609); `stat` is the error of
its call of `os.Stat`. -/
def path_exists (path : String) (stat : Option Errno) : (Bool × Option Error) × List Event :=
  match sysErr stat with
  | none => ((true, none), [.osStat path])
  | some err =>
    if IsNotExist err then ((false, none), [.osStat path])
    else ((false, some err), [.osStat path])

/-- The function `DownloadFile(path, url)` (lines 566-598): the error it
returns and the calls it makes.  The deferred `resp.Body.Close()` and
`out.Close()` run when the function returns, the later one first.  The result
of `os.MkdirAll` is dropped by the source, so `env.mkdirAll` is not read. -/
def DownloadFile (path url : String) (env : FetchEnv) : Option Error × List Event :=
  match env.get with
  | .error err => (some (.Sys err), [.callDownloadFile path url, .httpGet url])
  | .ok resp =>
    match path_exists path env.stat with
    | ((_, some err), tr) =>
      (some err, [.callDownloadFile path url, .httpGet url] ++ tr ++ [.closeBody url])
    | ((pathExists, none), tr) =>
      match sysErr env.create with
      | some err =>
        (some err, [.callDownloadFile path url, .httpGet url] ++ tr
          ++ (if !pathExists then [.osMkdirAllDir path] else [])
          ++ [.osCreate path, .closeBody url])
      | none =>
        (sysErr env.copy, [.callDownloadFile path url, .httpGet url] ++ tr
          ++ (if !pathExists then [.osMkdirAllDir path] else [])
          ++ [.osCreate path, .ioCopy path resp.Body, .closeFile path, .closeBody url])

/-! ## The ruling printer (lines 44-80) -/

/-- What one call of `CatRulings` meets: the result of each call it makes. -/
structure CatEnv where
  /-- Error of `os.Stat(path)`. -/
  stat : Option Errno
  /-- Error of `os.Open(path)`. -/
  openFile : Option Errno
  /-- Result of `ioutil.ReadAll(file)`. -/
  read : Except Errno String
  /-- The library function `json.Unmarshal` into a `[]Ruling`. -/
  jsonUnmarshal : String → Except Errno (List Ruling)

/-- The error returned for a path that does not exist (line 49). -/
def errNoFile (path : String) : Error :=
  .New ("The file you attempted to cat [" ++ path ++ "] does not exist.")

/-- The function `CatRulings(path)` (lines 44-80): the error it returns and the
calls it makes.  The deferred `file.Close()` runs when the function returns. -/
def CatRulings (path : String) (env : CatEnv) : Option Error × List Event :=
  match sysErr env.stat with
  | some err =>
    if IsNotExist err then (some (errNoFile path), [.osStat path])
    else (some err, [.osStat path])
  | none =>
    match sysErr env.openFile with
    | some err => (some err, [.osStat path, .osOpen path])
    | none =>
      match env.read with
      | .error err =>
        (some (.Sys err), [.osStat path, .osOpen path, .readAllFile path, .closeFile path])
      | .ok contents =>
        match env.jsonUnmarshal contents with
        | .error err =>
          (some (.Sys err), [.osStat path, .osOpen path, .readAllFile path,
            .fmtPrintlnError (.Sys err), .closeFile path])
        | .ok rulings =>
          (none, [.osStat path, .osOpen path, .readAllFile path]
            ++ rulings.map Event.fmtPrintlnRuling ++ [.closeFile path])

/-- The text that `fmt.Println(ruling)` writes before the end of the line: the
five fields in the order of the record, separated by blanks, in braces. -/
def rulingText (r : Ruling) : String :=
  "\x7b" ++ r.ObjectType ++ " " ++ r.Oracle_ID ++ " " ++ r.Source ++ " " ++ r.Published_At
    ++ " " ++ r.Comment ++ "\x7d"

/-! ## The bulk download (lines 82-164) -/

/-- What one run of `DownloadBulkData` meets: the result of each call it can
make, in the order of the source. -/
structure World where
  /-- Error of `os.Stat(SaveLocation + BulkLog)`. -/
  statLog : Option Errno
  /-- Error of `os.Open(SaveLocation + BulkLog)`. -/
  openLog : Option Errno
  /-- Result of `ioutil.ReadAll(file)` on the log file. -/
  readLog : Except Errno String
  /-- The library function `time.Parse(time.UnixDate, ·)`. -/
  timeParse : String → Except Errno Time
  /-- Value of `time.Now()` in the freshness test (line 111). -/
  nowCheck : Time
  /-- What the successive reads of the console return. -/
  stdin : List String
  /-- Result of `http.Get(BulkLocation)`. -/
  listingGet : Except Errno Response
  /-- Error of `ioutil.ReadAll(resp.Body)` on the listing. -/
  listingRead : Option Errno
  /-- The library function `json.Unmarshal` into a `List` record. -/
  jsonUnmarshal : String → Except Errno ListObject
  /-- What the call of `DownloadFile` number `i` (from 0) of the loop meets. -/
  fetch : Nat → FetchEnv
  /-- Error of `os.Create(SaveLocation + BulkLog)`. -/
  createLog : Option Errno
  /-- Value of `time.Now()` when the log is written (line 161). -/
  nowWrite : Time
  /-- The library method `t.Format(time.UnixDate)`. -/
  timeFormat : Time → String
  /-- Error of `file.WriteString(...)` on the log file. -/
  writeLog : Option Errno

/-- Name of the log file, `SaveLocation + BulkLog`. -/
def logName : String := SaveLocation ++ BulkLog

/-- The question put to the user (line 117). -/
def promptText : String :=
  "The Bulk Data files are likely over a gigabyte of data that will be downloaded. Do you want to update these files?"

/-- The error returned when the log is fresh (line 112). -/
def errRecent : Error :=
  .New "The bulk data has been updated within the last 24 hours. You don't need to update it yet."

/-- The error returned when the user declines (line 118). -/
def errAborted : Error := .New "Download aborted by user."

/-- The loop of lines 138-144 over `blob.Data`; `i` numbers the calls of
`DownloadFile`.  The first failing call ends the loop with its error. -/
def downloadEach (fetch : Nat → FetchEnv) : Nat → List JSONElement → Option Error × List Event
  | _, [] => (none, [])
  | i, data_element :: rest =>
    match DownloadFile (SaveLocation ++ data_element.Name ++ ".json")
        data_element.Download_URI (fetch i) with
    | (some err, tr) => (some err, tr)
    | (none, tr) => ((downloadEach fetch (i + 1) rest).1, tr ++ (downloadEach fetch (i + 1) rest).2)

/-- Lines 116-163 of `DownloadBulkData`: from the confirmation prompt to the
write of the log.  The error of `file.WriteString` is assigned to `err` and
the function then executes `return nil`. -/
def afterGate (w : World) : Outcome (Option Error) × List Event :=
  match PromptYN promptText w.stdin with
  | (.panic msg, tr) => (.panic msg, tr)
  | (.ret false, tr) => (.ret (some errAborted), tr)
  | (.ret true, tr) =>
    match w.listingGet with
    | .error err => (.ret (some (.Sys err)), tr ++ [.httpGet BulkLocation])
    | .ok resp =>
      match sysErr w.listingRead with
      | some err => (.ret (some err), tr ++ [.httpGet BulkLocation, .readAllBody BulkLocation])
      | none =>
        match ParseJSONList w.jsonUnmarshal resp.Body with
        | (_, some err) =>
          (.ret (some err), tr ++ [.httpGet BulkLocation, .readAllBody BulkLocation])
        | (blob, none) =>
          match downloadEach w.fetch 0 blob.Data with
          | (some err, trLoop) =>
            (.ret (some err), tr ++ [.httpGet BulkLocation, .readAllBody BulkLocation] ++ trLoop)
          | (none, trLoop) =>
            match sysErr w.createLog with
            | some err =>
              (.ret (some err), tr ++ [.httpGet BulkLocation, .readAllBody BulkLocation]
                ++ trLoop ++ [.osCreate logName])
            | none =>
              (.ret none, tr ++ [.httpGet BulkLocation, .readAllBody BulkLocation]
                ++ trLoop ++ [.osCreate logName,
                  .writeString logName (w.timeFormat w.nowWrite), .closeFile logName])

/-- The value of `date` after `date, _ := time.Parse(time.UnixDate, string(contents))`:
the parsed time, or the zero `Time` when the library reports an error. -/
def parsedDate (w : World) (contents : String) : Time :=
  match w.timeParse contents with
  | .ok t => t
  | .error _ => Time.zero

/-- The function `DownloadBulkData()` (lines 82-164): how it ends and the calls
it makes.  The `defer file.Close()` of line 99 runs when the function ends. -/
def DownloadBulkData (w : World) : Outcome (Option Error) × List Event :=
  match sysErr w.statLog with
  | some err =>
    if IsNotExist err then
      ((afterGate w).1, [.osStat logName] ++ (afterGate w).2)
    else (.ret (some err), [.osStat logName])
  | none =>
    match sysErr w.openLog with
    | some err => (.ret (some err), [.osStat logName, .osOpen logName])
    | none =>
      match w.readLog with
      | .error err =>
        (.ret (some (.Sys err)),
          [.osStat logName, .osOpen logName, .readAllFile logName, .closeFile logName])
      | .ok contents =>
        if Hours (w.nowCheck.Sub (parsedDate w contents)) < 24 then
          (.ret (some errRecent),
            [.osStat logName, .osOpen logName, .readAllFile logName, .closeFile logName])
        else
          ((afterGate w).1,
            [.osStat logName, .osOpen logName, .readAllFile logName] ++ (afterGate w).2
              ++ [.closeFile logName])

/-! ## Reading traces -/

/-- The calls of `DownloadFile` recorded in a trace, as (path, url), in order. -/
def fetchCalls : List Event → List (String × String)
  | [] => []
  | .callDownloadFile path url :: tr => (path, url) :: fetchCalls tr
  | _ :: tr => fetchCalls tr

/-- Events of the confirmation prompt: the question and the console read. -/
def Event.isPrompt : Event → Bool
  | .fmtPrint _ => true
  | .stdinReadString => true
  | _ => false

/-- Events of the network: the GETs and the reads of a response body. -/
def Event.isNetwork : Event → Bool
  | .httpGet _ => true
  | .readAllBody _ => true
  | .closeBody _ => true
  | _ => false

/-- Events that belong to a file fetch. -/
def Event.isFetch : Event → Bool
  | .callDownloadFile _ _ => true
  | .osMkdirAllDir _ => true
  | .ioCopy _ _ => true
  | _ => false

/-- Events that create, truncate or write a file. -/
def Event.isWrite : Event → Bool
  | .osCreate _ => true
  | .osMkdirAllDir _ => true
  | .ioCopy _ _ => true
  | .writeString _ _ => true
  | _ => false

/-- Events that create or write the log file. -/
def Event.touchesLog : Event → Bool
  | .osCreate name => name == logName
  | .ioCopy dst _ => dst == logName
  | .writeString name _ => name == logName
  | _ => false

/-- Events of the freshness gate: the calls on the log file that read it. -/
def Event.isGate : Event → Bool
  | .osStat _ => true
  | .osOpen _ => true
  | .readAllFile _ => true
  | .closeFile _ => true
  | _ => false

/-- The freshness gate lets the run through: the log file is missing, or it is
read and the test of line 111 finds it not fresh. -/
def gatePasses (w : World) : Prop :=
  w.statLog = some ENOENT ∨
  ∃ contents, w.statLog = none ∧ w.openLog = none ∧ w.readLog = .ok contents
    ∧ ¬ Hours (w.nowCheck.Sub (parsedDate w contents)) < 24

/-- Destination path and source URL of the fetch of a descriptor (lines 139-140). -/
def fetchTarget (d : JSONElement) : String × String :=
  (SaveLocation ++ d.Name ++ ".json", d.Download_URI)

/-- The text an event writes into the log file, when it is a call of
`file.WriteString` on that file. -/
def Event.logText : Event → Option String
  | .writeString name s => if name = logName then some s else none
  | _ => none

/-- The text a run leaves in the log file: the argument of the call of
`file.WriteString` on the log file (made right after `os.Create` has emptied
the file), when the run makes that call and the call returns no error.  It is
`none` when the run does not reach the write or the write fails. -/
def writtenLog (w : World) : Option String :=
  match w.writeLog with
  | some _ => none
  | none => (DownloadBulkData w).2.findSome? Event.logText

/-! ## Sample runs -/

/-- A fetch whose destination does not exist yet and whose calls all succeed. -/
def okFetch : FetchEnv :=
  ⟨.ok ⟨200, "[]"⟩, some ENOENT, none, none, none⟩

/-- A fetch whose GET fails. -/
def failedFetch : FetchEnv :=
  ⟨.error 111, none, none, none, none⟩

/-- Three descriptors as the listing returns them. -/
def sampleData : List JSONElement :=
  [⟨"Oracle Cards", "https://data.scryfall.io/oracle-cards.json"⟩,
   ⟨"Rulings", "https://data.scryfall.io/rulings.json"⟩,
   ⟨"All Cards", "https://data.scryfall.io/all-cards.json"⟩]

/-- A run on a machine in zone UTC: the log is missing, the user answers `y`,
the listing holds `sampleData`, every fetch succeeds, and the log is written
at 2023-11-14 22:13:20.7 UTC. -/
def firstRun : World where
  statLog := some ENOENT
  openLog := none
  readLog := .ok ""
  timeParse := parseUnixDate
  nowCheck := ⟨1700000000000000000⟩
  stdin := ["y\n"]
  listingGet := .ok ⟨200, "listing"⟩
  listingRead := none
  jsonUnmarshal := fun _ => .ok ⟨"list", sampleData, false, "", 0, []⟩
  fetch := fun _ => okFetch
  createLog := none
  nowWrite := ⟨1700000000700000000⟩
  timeFormat := formatUnixDate
  writeLog := none

/-- A later run on the same machine: the log holds the text written by
`firstRun`, the clock reads `now`, and the console gives `stdin`. -/
def laterRun (now : Time) (stdin : List String) : World where
  statLog := none
  openLog := none
  readLog := .ok "Tue Nov 14 22:13:20 UTC 2023"
  timeParse := parseUnixDate
  nowCheck := now
  stdin := stdin
  listingGet := .ok ⟨200, "listing"⟩
  listingRead := none
  jsonUnmarshal := fun _ => .ok ⟨"list", sampleData, false, "", 0, []⟩
  fetch := fun _ => okFetch
  createLog := none
  nowWrite := now
  timeFormat := formatUnixDate
  writeLog := none

/-- A run like `firstRun` in which the GET of the second file fails. -/
def secondFetchFails : World :=
  { firstRun with fetch := fun i => if i = 1 then failedFetch else okFetch }

/-- A run like `firstRun` in which the write of the timestamp fails (error
number 28, no space left on the device). -/
def diskFullRun : World := { firstRun with writeLog := some 28 }

/-- A fetch into a new directory whose GET succeeds and whose copy of the
body breaks off (error number 104, connection reset by peer). -/
def brokenBodyFetch : FetchEnv :=
  ⟨.ok ⟨200, "data"⟩, some ENOENT, none, none, some 104⟩

/-- Events that write to the console. -/
def Event.isPrint : Event → Bool
  | .fmtPrint _ => true
  | .fmtPrintlnRuling _ => true
  | .fmtPrintlnError _ => true
  | _ => false

/-- The rulings that a trace prints with `fmt.Println(ruling)`, in order. -/
def printedRulings : List Event → List Ruling
  | [] => []
  | .fmtPrintlnRuling r :: tr => r :: printedRulings tr
  | _ :: tr => printedRulings tr

/-- The ruling of a file with one record. -/
def sampleRuling : Ruling := ⟨"ruling", "abc", "wotc", "2020-01-01", "test"⟩

/-- A call of `CatRulings` on a readable file that decodes to `sampleRuling`. -/
def sampleCat : CatEnv :=
  ⟨none, none, .ok "[ruling abc]", fun _ => .ok [sampleRuling]⟩

/-- A run on a machine in zone UTC whose log file is empty; the clock reads
`now`, and the user declines at the prompt. -/
def emptyLogRun (now : Time) : World :=
  { laterRun now ["n\n"] with readLog := .ok "" }

/-- A fetch whose GET is answered with status 404 and an error page, the
destination file being there already. -/
def notFoundFetch : FetchEnv :=
  ⟨.ok ⟨404, "Not Found"⟩, none, none, none, none⟩

/-! ## Lemmas on time -/

theorem Hours_eq (d : Int) : Hours d = (d : ℚ) / 3600000000000 := by
  have h := Int.tdiv_add_tmod d Hour
  have hq : ((Hour : Int) : ℚ) * ((Int.tdiv d Hour : Int) : ℚ) + ((Int.tmod d Hour : Int) : ℚ)
      = (d : ℚ) := by exact_mod_cast h
  have hH : ((Hour : Int) : ℚ) = 3600000000000 := by
    simp only [Hour, Second]; norm_num
  rw [hH] at hq
  unfold Hours
  rw [← hq]
  field_simp
  ring

theorem Hours_lt_24_iff (d : Int) : Hours d < 24 ↔ d < 24 * Hour := by
  rw [Hours_eq, div_lt_iff₀ (by norm_num : (0 : ℚ) < 3600000000000)]
  have hH : (24 * Hour : Int) = 86400000000000 := by simp only [Hour, Second]; norm_num
  rw [hH]
  constructor
  · intro h
    have h2 : (d : ℚ) < ((86400000000000 : Int) : ℚ) := by
      have : ((86400000000000 : Int) : ℚ) = 24 * 3600000000000 := by norm_num
      rw [this]; exact h
    exact_mod_cast h2
  · intro h
    have h2 : (d : ℚ) < ((86400000000000 : Int) : ℚ) := by exact_mod_cast h
    have : ((86400000000000 : Int) : ℚ) = 24 * 3600000000000 := by norm_num
    rw [this] at h2; exact h2

theorem Sub_lt_24h_iff (t u : Time) :
    t.Sub u < 24 * Hour ↔ t.unixNano - u.unixNano < 24 * Hour := by
  unfold Time.Sub
  simp only [Hour, Second, minDuration, maxDuration]
  split_ifs <;> constructor <;> intro h <;> omega

/-- The test of line 111 is the exact comparison of the two instants. -/
theorem fresh_test_iff (t u : Time) :
    Hours (t.Sub u) < 24 ↔ t.unixNano - u.unixNano < 24 * Hour := by
  rw [Hours_lt_24_iff, Sub_lt_24h_iff]

/-! ## Lemmas on the calendar and on the text of a date -/

/-- The parts of `yearDay`: cycle counts within their ranges. -/
theorem yearDay_spec (days : Int) :
    ∃ (n400 : Int) (n100 n4 n1 d4 : Nat),
      yearDay days = (400 * n400 + Int.ofNat (100 * n100 + 4 * n4 + n1) + 1, d4)
      ∧ days + 719162 = 146097 * n400 + Int.ofNat (36524 * n100 + 1461 * n4 + 365 * n1 + d4)
      ∧ n100 ≤ 3 ∧ n4 ≤ 24 ∧ n1 ≤ 3
      ∧ (d4 ≤ 364 ∨ (d4 = 365 ∧ n1 = 3 ∧ (n4 ≤ 23 ∨ n100 = 3))) := by
  refine ⟨(days + 719162) / 146097, _, _, _, _, rfl, ?_, ?_, ?_, ?_, ?_⟩
  all_goals (try simp only [Int.ofNat_eq_coe])
  all_goals omega

theorem isLeap_of_parts (n400 : Int) (n100 n4 n1 : Nat) (h100 : n100 ≤ 3) (h4 : n4 ≤ 24)
    (h1 : n1 ≤ 3) :
    isLeap (400 * n400 + Int.ofNat (100 * n100 + 4 * n4 + n1) + 1)
      = (decide (n1 = 3) && (decide (n4 ≤ 23) || decide (n100 = 3))) := by
  unfold isLeap
  simp only [Int.ofNat_eq_coe]
  rw [Bool.eq_iff_iff]
  simp only [Bool.and_eq_true, Bool.or_eq_true, beq_iff_eq, bne_iff_ne, decide_eq_true_eq, ne_eq]
  omega

theorem daysSinceEpoch_of_parts (n400 : Int) (n100 n4 n1 : Nat) (h100 : n100 ≤ 3)
    (h4 : n4 ≤ 24) (h1 : n1 ≤ 3) :
    daysSinceEpoch (400 * n400 + Int.ofNat (100 * n100 + 4 * n4 + n1) + 1)
      = 146097 * n400 + Int.ofNat (36524 * n100 + 1461 * n4 + 365 * n1) := by
  unfold daysSinceEpoch
  simp only [Int.ofNat_eq_coe]
  omega

set_option maxRecDepth 100000 in
theorem monthDayCommon_spec : ∀ day, day < 365 →
    1 ≤ (monthDayCommon day).1 ∧ (monthDayCommon day).1 ≤ 12
      ∧ 1 ≤ (monthDayCommon day).2
      ∧ (monthDayCommon day).2 + daysBefore.getD ((monthDayCommon day).1 - 1) 0
          ≤ daysBefore.getD (monthDayCommon day).1 0
      ∧ daysBefore.getD ((monthDayCommon day).1 - 1) 0 + (monthDayCommon day).2 = day + 1
      ∧ (day < 59 → (monthDayCommon day).1 ≤ 2)
      ∧ (59 ≤ day → 3 ≤ (monthDayCommon day).1) := by
  decide

/-- The month and day that `monthDay` gives for a day of the year lie in
range, and the table leads back to the day of the year. -/
theorem monthDay_spec (leap : Bool) (yday : Nat) (h : yday ≤ 364 ∨ (leap = true ∧ yday = 365)) :
    1 ≤ (monthDay leap yday).1 ∧ (monthDay leap yday).1 ≤ 12
      ∧ 1 ≤ (monthDay leap yday).2
      ∧ (monthDay leap yday).2
          ≤ (if ((monthDay leap yday).1 == 2 && leap) = true then 29
              else daysBefore.getD (monthDay leap yday).1 0
                - daysBefore.getD ((monthDay leap yday).1 - 1) 0)
      ∧ daysBefore.getD ((monthDay leap yday).1 - 1) 0
          + (if (leap && decide (3 ≤ (monthDay leap yday).1)) = true then 1 else 0)
          + (monthDay leap yday).2 = yday + 1 := by
  cases leap with
  | false =>
    have hy : yday < 365 := by
      rcases h with h | h
      · omega
      · exact absurd h.1 (by decide)
    obtain ⟨h1, h2, h3, h4, h5, _, _⟩ := monthDayCommon_spec yday hy
    have hmd : monthDay false yday = monthDayCommon yday := by simp [monthDay]
    rw [hmd]
    simp only [Bool.and_false, Bool.false_and, Bool.false_eq_true, if_false]
    omega
  | true =>
    have hy : yday ≤ 365 := by rcases h with h | h <;> omega
    by_cases h59 : yday = 59
    · subst h59
      have hmd : monthDay true 59 = (2, 29) := by simp [monthDay]
      rw [hmd]
      simp [daysBefore]
    · by_cases hlt : 59 < yday
      · obtain ⟨h1, h2, h3, h4, h5, _, h7⟩ := monthDayCommon_spec (yday - 1) (by omega)
        have hmd : monthDay true yday = monthDayCommon (yday - 1) := by
          simp [monthDay, h59, hlt]
        rw [hmd]
        have h3le := h7 (by omega)
        have hne : ((monthDayCommon (yday - 1)).1 == 2) = false := by
          simp only [beq_eq_false_iff_ne, ne_eq]; omega
        simp only [hne, Bool.false_and, Bool.false_eq_true, if_false, Bool.true_and,
          decide_eq_true_eq, h3le, if_true]
        omega
      · obtain ⟨h1, h2, h3, h4, h5, h6, _⟩ := monthDayCommon_spec yday (by omega)
        have hmd : monthDay true yday = monthDayCommon yday := by
          simp [monthDay, h59, hlt]
        rw [hmd]
        have hle := h6 (by omega)
        have hnot : ¬ 3 ≤ (monthDayCommon yday).1 := by omega
        simp only [Bool.and_true, Bool.true_and, decide_eq_true_eq, hnot, if_false]
        generalize (monthDayCommon yday).1 = m at *
        generalize (monthDayCommon yday).2 = d at *
        interval_cases m
        · simp [daysBefore] at h4 h5 ⊢; omega
        · simp [daysBefore] at h4 h5 ⊢; omega

/-- The date of a day number is a valid date, and `daysFromCivil` leads back
from it to the day number. -/
theorem civilFromDays_spec (days : Int) :
    1 ≤ (civilFromDays days).2.1 ∧ (civilFromDays days).2.1 ≤ 12
      ∧ 1 ≤ (civilFromDays days).2.2
      ∧ (civilFromDays days).2.2 ≤ daysIn (civilFromDays days).2.1 (civilFromDays days).1
      ∧ daysFromCivil (civilFromDays days).1 (civilFromDays days).2.1 (civilFromDays days).2.2
          = days := by
  obtain ⟨n400, n100, n4, n1, d4, hyd, hsum, h100, h4, h1, hd4⟩ := yearDay_spec days
  have hleap := isLeap_of_parts n400 n100 n4 n1 h100 h4 h1
  have hepoch := daysSinceEpoch_of_parts n400 n100 n4 n1 h100 h4 h1
  have hmd := monthDay_spec (isLeap (400 * n400 + Int.ofNat (100 * n100 + 4 * n4 + n1) + 1)) d4
    (by
      rcases hd4 with h | ⟨h, hn1, hn4⟩
      · exact Or.inl h
      · refine Or.inr ⟨?_, h⟩
        rw [hleap]
        simp only [Bool.and_eq_true, Bool.or_eq_true, decide_eq_true_eq]
        exact ⟨hn1, hn4⟩)
  simp only [civilFromDays, hyd, daysIn, daysFromCivil, hepoch]
  generalize isLeap (400 * n400 + Int.ofNat (100 * n100 + 4 * n4 + n1) + 1) = leap at *
  obtain ⟨m1, m2, m3, m4, m5⟩ := hmd
  refine ⟨m1, m2, m3, m4, ?_⟩
  simp only [Int.ofNat_eq_coe] at hsum ⊢
  split_ifs at m5 ⊢ <;> omega

theorem digitChar_facts : ∀ k, k < 10 →
    (Nat.digitChar k).isDigit = true ∧ (Nat.digitChar k).toNat - 48 = k
      ∧ Nat.digitChar k ≠ ' ' := by
  decide

theorem appendInt_two : ∀ n, n < 100 →
    appendInt n 2 = [Nat.digitChar (n / 10), Nat.digitChar (n % 10)] := by
  decide

theorem appendInt_day : ∀ n, n < 100 →
    (if n < 10 then [' '] else []) ++ appendInt n 0
      = if n < 10 then [' ', Nat.digitChar n]
        else [Nat.digitChar (n / 10), Nat.digitChar (n % 10)] := by
  decide

theorem lookup_day : ∀ wd, wd < 7 → ∀ rest : List Char,
    lookup shortDayNames 0 ((shortDayNames.getD wd "").data ++ ' ' :: rest)
      = some (wd, ' ' :: rest) := by
  intro wd hwd rest
  interval_cases wd <;> simp [lookup, shortDayNames, matchChars, matchChar, String.length]

theorem lookup_month : ∀ m, m < 12 → ∀ rest : List Char,
    lookup shortMonthNames 1 ((shortMonthNames.getD m "").data ++ ' ' :: rest)
      = some (m + 1, ' ' :: rest) := by
  intro m hm rest
  interval_cases m <;> simp [lookup, shortMonthNames, matchChars, matchChar, String.length]

theorem digitsRev_lt (fuel n : Nat) (h : n < 10) :
    digitsRev (fuel + 1) n = [Nat.digitChar n] := by
  simp [digitsRev, h]

theorem digitsRev_ge (fuel n : Nat) (h : ¬ n < 10) :
    digitsRev (fuel + 1) n = Nat.digitChar (n % 10) :: digitsRev fuel (n / 10) := by
  simp [digitsRev, h]

theorem appendInt_year (y : Nat) (hy : y < 10000) :
    appendInt y 4 = [Nat.digitChar (y / 1000), Nat.digitChar (y / 100 % 10),
      Nat.digitChar (y / 10 % 10), Nat.digitChar (y % 10)] := by
  have e1 : y / 10 / 10 = y / 100 := by omega
  have e2 : y / 10 / 10 / 10 = y / 1000 := by omega
  unfold appendInt
  by_cases h1 : y < 10
  · have a : y / 1000 = 0 := by omega
    have b : y / 100 % 10 = 0 := by omega
    have c : y / 10 % 10 = 0 := by omega
    have d : y % 10 = y := by omega
    rw [digitsRev_lt 19 y h1, a, b, c, d]
    rfl
  · by_cases h2 : y < 100
    · have a : y / 1000 = 0 := by omega
      have b : y / 100 % 10 = 0 := by omega
      have c : y / 10 % 10 = y / 10 := by omega
      rw [digitsRev_ge 19 y h1, digitsRev_lt 18 (y / 10) (by omega), a, b, c]
      rfl
    · by_cases h3 : y < 1000
      · have a : y / 1000 = 0 := by omega
        have b : y / 100 % 10 = y / 100 := by omega
        rw [digitsRev_ge 19 y h1, digitsRev_ge 18 (y / 10) (by omega),
          digitsRev_lt 17 (y / 10 / 10) (by omega), e1, a, b]
        rfl
      · have b : y / 10 / 10 % 10 = y / 100 % 10 := by rw [e1]
        rw [digitsRev_ge 19 y h1, digitsRev_ge 18 (y / 10) (by omega),
          digitsRev_ge 17 (y / 10 / 10) (by omega),
          digitsRev_lt 16 (y / 10 / 10 / 10) (by omega), e2, b]
        rfl

theorem getnum_two (fixed : Bool) (a b : Nat) (ha : a < 10) (hb : b < 10) (rest : List Char) :
    getnum fixed (Nat.digitChar a :: Nat.digitChar b :: rest) = some (a * 10 + b, rest) := by
  obtain ⟨ha1, ha2, _⟩ := digitChar_facts a ha
  obtain ⟨hb1, hb2, _⟩ := digitChar_facts b hb
  simp [getnum, ha1, ha2, hb1, hb2]

theorem getnum_one (a : Nat) (ha : a < 10) (rest : List Char) :
    getnum false (Nat.digitChar a :: ' ' :: rest) = some (a, ' ' :: rest) := by
  obtain ⟨ha1, ha2, _⟩ := digitChar_facts a ha
  simp [getnum, ha1, ha2]

theorem getYear_four (a b c d : Nat) (ha : a < 10) (hb : b < 10) (hc : c < 10) (hd : d < 10) :
    getYear [Nat.digitChar a, Nat.digitChar b, Nat.digitChar c, Nat.digitChar d]
      = some (a * 1000 + b * 100 + c * 10 + d, []) := by
  obtain ⟨ha1, ha2, _⟩ := digitChar_facts a ha
  obtain ⟨hb1, hb2, _⟩ := digitChar_facts b hb
  obtain ⟨hc1, hc2, _⟩ := digitChar_facts c hc
  obtain ⟨hd1, hd2, _⟩ := digitChar_facts d hd
  simp [getYear, ha1, ha2, hb1, hb2, hc1, hc2, hd1, hd2]

theorem skipSpace_digit (a : Nat) (ha : a < 10) (rest : List Char) :
    skipSpace (' ' :: Nat.digitChar a :: rest) = some (Nat.digitChar a :: rest) := by
  obtain ⟨_, _, ha3⟩ := digitChar_facts a ha
  simp [skipSpace, List.dropWhile, ha3]

theorem skipSpace_two_digit (a : Nat) (ha : a < 10) (rest : List Char) :
    skipSpace (' ' :: ' ' :: Nat.digitChar a :: rest) = some (Nat.digitChar a :: rest) := by
  obtain ⟨_, _, ha3⟩ := digitChar_facts a ha
  simp [skipSpace, List.dropWhile, ha3]

theorem skipSpace_month : ∀ m, m < 12 → ∀ rest : List Char,
    skipSpace (' ' :: ((shortMonthNames.getD m "").data ++ rest))
      = some ((shortMonthNames.getD m "").data ++ rest) := by
  intro m hm rest
  interval_cases m <;> simp [skipSpace, shortMonthNames, List.dropWhile]

/-- The characters `Format` writes for the day of the month (`_2`). -/
theorem parseDatePart_format (wd m d : Nat) (hwd : wd < 7) (hm1 : 1 ≤ m) (hm : m ≤ 12)
    (hd1 : 1 ≤ d) (hd : d < 100) (r : List Char) :
    parseDatePart ((shortDayNames.getD wd "").data ++ ' ' ::
        ((shortMonthNames.getD (m - 1) "").data ++ ' ' ::
          ((if d < 10 then [' ', Nat.digitChar d]
              else [Nat.digitChar (d / 10), Nat.digitChar (d % 10)]) ++ ' ' :: r)))
      = some ((m, d), ' ' :: r) := by
  unfold parseDatePart
  rw [lookup_day wd hwd]
  simp only [Option.bind_some, Option.some_bind]
  rw [skipSpace_month (m - 1) (by omega)]
  simp only [Option.bind_some, Option.some_bind]
  rw [lookup_month (m - 1) (by omega)]
  simp only [Option.bind_some, Option.some_bind]
  by_cases h10 : d < 10
  · simp only [h10, if_true, List.cons_append, List.nil_append]
    rw [skipSpace_two_digit d h10]
    simp only [Option.bind_some, Option.some_bind]
    rw [getnum_one d h10]
    simp only [Option.bind_some, Option.some_bind]
    rw [show m - 1 + 1 = m by omega]
  · simp only [h10, if_false, List.cons_append, List.nil_append]
    rw [skipSpace_digit (d / 10) (by omega)]
    simp only [Option.bind_some, Option.some_bind]
    rw [getnum_two false (d / 10) (d % 10) (by omega) (by omega)]
    simp only [Option.bind_some, Option.some_bind]
    rw [show m - 1 + 1 = m by omega, show d / 10 * 10 + d % 10 = d by omega]

theorem skipChar_colon (rest : List Char) : skipChar ':' (':' :: rest) = some rest := by
  simp [skipChar]

theorem parseClockPart_format (h mi s : Nat) (hh : h < 100) (hmi : mi < 100) (hs : s < 100)
    (r : List Char) :
    parseClockPart (' ' :: Nat.digitChar (h / 10) :: Nat.digitChar (h % 10) :: ':'
        :: Nat.digitChar (mi / 10) :: Nat.digitChar (mi % 10) :: ':'
        :: Nat.digitChar (s / 10) :: Nat.digitChar (s % 10) :: r)
      = some ((h, mi, s), r) := by
  unfold parseClockPart
  rw [skipSpace_digit (h / 10) (by omega)]
  simp only [Option.bind_some, Option.some_bind]
  rw [getnum_two false (h / 10) (h % 10) (by omega) (by omega)]
  simp only [Option.bind_some, Option.some_bind]
  rw [skipChar_colon]
  simp only [Option.bind_some, Option.some_bind]
  rw [getnum_two true (mi / 10) (mi % 10) (by omega) (by omega)]
  simp only [Option.bind_some, Option.some_bind]
  rw [skipChar_colon]
  simp only [Option.bind_some, Option.some_bind]
  rw [getnum_two true (s / 10) (s % 10) (by omega) (by omega)]
  simp only [Option.bind_some, Option.some_bind]
  rw [show h / 10 * 10 + h % 10 = h by omega, show mi / 10 * 10 + mi % 10 = mi by omega,
    show s / 10 * 10 + s % 10 = s by omega]

theorem parseZoneYearPart_format (y : Nat) (hy : y < 10000) :
    parseZoneYearPart (' ' :: 'U' :: 'T' :: 'C' :: ' ' :: [Nat.digitChar (y / 1000),
        Nat.digitChar (y / 100 % 10), Nat.digitChar (y / 10 % 10), Nat.digitChar (y % 10)])
      = some (y, []) := by
  unfold parseZoneYearPart
  have h1 : skipSpace (' ' :: 'U' :: 'T' :: 'C' :: ' ' :: [Nat.digitChar (y / 1000),
        Nat.digitChar (y / 100 % 10), Nat.digitChar (y / 10 % 10), Nat.digitChar (y % 10)])
      = some ('U' :: 'T' :: 'C' :: ' ' :: [Nat.digitChar (y / 1000),
        Nat.digitChar (y / 100 % 10), Nat.digitChar (y / 10 % 10), Nat.digitChar (y % 10)]) := by
    simp [skipSpace, List.dropWhile]
  rw [h1]
  simp only [Option.bind_some, Option.some_bind]
  have h2 : getUTC ('U' :: 'T' :: 'C' :: ' ' :: [Nat.digitChar (y / 1000),
        Nat.digitChar (y / 100 % 10), Nat.digitChar (y / 10 % 10), Nat.digitChar (y % 10)])
      = some (' ' :: [Nat.digitChar (y / 1000),
        Nat.digitChar (y / 100 % 10), Nat.digitChar (y / 10 % 10), Nat.digitChar (y % 10)]) := by
    simp [getUTC]
  rw [h2]
  simp only [Option.bind_some, Option.some_bind]
  rw [skipSpace_digit (y / 1000) (by omega)]
  simp only [Option.bind_some, Option.some_bind]
  rw [getYear_four _ _ _ _ (by omega) (by omega) (by omega) (by omega)]
  rw [show y / 1000 * 1000 + y / 100 % 10 * 100 + y / 10 % 10 * 10 + y % 10 = y by omega]

theorem daysIn_le (m : Nat) (hm1 : 1 ≤ m) (hm : m ≤ 12) (y : Int) : daysIn m y ≤ 31 := by
  unfold daysIn
  interval_cases m <;> simp only [daysBefore] <;> split_ifs <;> simp

theorem civil_year_range (days : Int) (hlo : -719528 ≤ days) (hhi : days ≤ 2932896) :
    0 ≤ (civilFromDays days).1 ∧ (civilFromDays days).1 ≤ 9999 := by
  obtain ⟨n400, n100, n4, n1, d4, hyd, hsum, h100, h4, h1, hd4⟩ := yearDay_spec days
  simp only [civilFromDays, hyd]
  simp only [Int.ofNat_eq_coe] at hsum ⊢
  have hd : d4 ≤ 365 := by omega
  have ha : -1 ≤ n400 ∧ n400 ≤ 24 := by omega
  constructor
  · by_cases hneg : n400 = -1
    · subst hneg
      have hb : n100 = 3 := by omega
      subst hb
      have hc : n4 = 24 := by omega
      subst hc
      omega
    · omega
  · by_cases htop : n400 = 24
    · subst htop
      by_cases hb : n100 = 3
      · subst hb
        by_cases hc : n4 = 24
        · subst hc
          omega
        · omega
      · omega
    · omega

theorem appendInt_day_rest (n : Nat) (hn : n < 100) (rest : List Char) :
    (if n < 10 then [' '] else []) ++ (appendInt n 0 ++ rest)
      = (if n < 10 then [' ', Nat.digitChar n]
          else [Nat.digitChar (n / 10), Nat.digitChar (n % 10)]) ++ rest := by
  rw [← List.append_assoc, appendInt_day n hn]

/-- In zone UTC and for the years 0 to 9999, `Parse(UnixDate)` reads the text
of `Format(UnixDate)` back as the instant cut to the whole second. -/
theorem unixDate_round_trip (t : Time) (hlo : -62167219200 ≤ t.unixSec)
    (hhi : t.unixSec < 253402300800) :
    parseUnixDate (formatUnixDate t) = .ok t.truncSecond := by
  obtain ⟨m1, m2, d1, d2, hback⟩ := civilFromDays_spec (t.unixSec / 86400)
  obtain ⟨y0, y1⟩ := civil_year_range (t.unixSec / 86400) (by omega) (by omega)
  have hdin := daysIn_le _ m1 m2 (civilFromDays (t.unixSec / 86400)).1
  unfold parseUnixDate formatUnixDate
  generalize hc : civilFromDays (t.unixSec / 86400) = c at *
  obtain ⟨y, m, d⟩ := c
  simp only at m1 m2 d1 d2 hback y0 y1 hdin ⊢
  have hsecs : (t.unixSec % 86400).toNat < 86400 := by omega
  generalize hwd : ((t.unixSec / 86400 + 4) % 7).toNat = wd
  have hwd7 : wd < 7 := by omega
  generalize hs : (t.unixSec % 86400).toNat = secs at hsecs ⊢
  simp only [List.append_assoc, hc]
  rw [appendInt_day_rest d (by omega), appendInt_two _ (by omega : secs / 3600 < 100),
    appendInt_two _ (by omega : secs / 60 % 60 < 100),
    appendInt_two _ (by omega : secs % 60 < 100),
    appendInt_year y.toNat (by omega)]
  simp only [List.cons_append, List.nil_append, List.singleton_append]
  unfold parseFields
  rw [parseDatePart_format wd m d hwd7 m1 m2 d1 (by omega)]
  simp only [Option.bind_some, Option.some_bind]
  rw [parseClockPart_format _ _ _ (by omega) (by omega) (by omega)]
  simp only [Option.bind_some, Option.some_bind]
  rw [parseZoneYearPart_format y.toNat (by omega)]
  simp only [Option.bind_some, Option.some_bind]
  have hy : Int.ofNat y.toNat = y := by simp only [Int.ofNat_eq_coe]; omega
  have hrange : fieldsInRange y.toNat m d (secs / 3600) (secs / 60 % 60) (secs % 60) = true := by
    unfold fieldsInRange
    rw [hy]
    simp only [Bool.and_eq_true, decide_eq_true_eq]
    refine ⟨⟨⟨⟨?_, ?_⟩, ?_⟩, d1⟩, d2⟩ <;> omega
  simp only [hrange, List.isEmpty_nil, Bool.and_self, if_true, hy, hback]
  congr 1
  simp only [Time.truncSecond, Time.mk.injEq, Int.ofNat_eq_coe]
  omega

/-! ## Lemmas on the prompt -/

theorem PromptYN_trace_starts (prompt : String) (stdin : List String) :
    ∃ rest, (PromptYN prompt stdin).2
      = .fmtPrint (prompt ++ " [y/n]: ") :: .stdinReadString :: rest := by
  cases stdin with
  | nil => exact ⟨[], rfl⟩
  | cons text rest =>
    unfold PromptYN
    split
    · exact ⟨[], rfl⟩
    · split_ifs
      · exact ⟨[], rfl⟩
      · exact ⟨[], rfl⟩
      · exact ⟨(PromptYN prompt rest).2, rfl⟩

theorem PromptYN_trace_isPrompt (prompt : String) (stdin : List String) :
    ∀ ev ∈ (PromptYN prompt stdin).2, ev.isPrompt = true := by
  induction stdin with
  | nil => intro ev hev; simp [PromptYN] at hev; rcases hev with h | h <;> subst h <;> rfl
  | cons text rest ih =>
    intro ev hev
    unfold PromptYN at hev
    split at hev
    · simp at hev; rcases hev with h | h <;> subst h <;> rfl
    · split_ifs at hev
      · simp at hev; rcases hev with h | h <;> subst h <;> rfl
      · simp at hev; rcases hev with h | h <;> subst h <;> rfl
      · simp at hev
        rcases hev with h | h | h
        · subst h; rfl
        · subst h; rfl
        · exact ih ev h

/-! ## Lemmas on the errors a run can return -/

theorem sysErr_isSys (o : Option Errno) (err : Error) (h : sysErr o = some err) :
    ∃ code, err = .Sys code := by
  cases o with
  | none => simp [sysErr] at h
  | some code => simp [sysErr] at h; exact ⟨code, h.symm⟩

theorem path_exists_isSys (path : String) (stat : Option Errno) (err : Error)
    (h : (path_exists path stat).1.2 = some err) : ∃ code, err = .Sys code := by
  unfold path_exists at h
  split at h
  · simp at h
  · rename_i e he
    split_ifs at h
    simp at h; subst h; exact sysErr_isSys _ _ he

theorem DownloadFile_isSys (path url : String) (env : FetchEnv) (err : Error)
    (h : (DownloadFile path url env).1 = some err) : ∃ code, err = .Sys code := by
  unfold DownloadFile at h
  split at h
  · simp at h; exact ⟨_, h.symm⟩
  · split at h
    · rename_i e _ hp
      simp at h; subst h
      exact path_exists_isSys path env.stat e (by rw [hp])
    · split at h
      · rename_i e he
        simp at h; subst h; exact sysErr_isSys _ _ he
      · exact sysErr_isSys _ _ h

theorem downloadEach_isSys (fetch : Nat → FetchEnv) (i : Nat) (ds : List JSONElement)
    (err : Error) (h : (downloadEach fetch i ds).1 = some err) : ∃ code, err = .Sys code := by
  induction ds generalizing i with
  | nil => simp [downloadEach] at h
  | cons d rest ih =>
    unfold downloadEach at h
    split at h
    · rename_i e tr hd
      simp at h; subst h
      exact DownloadFile_isSys _ _ _ e (by rw [hd])
    · exact ih (i + 1) h

theorem ParseJSONList_isSys (unmarshal : String → Except Errno ListObject) (response : String)
    (err : Error) (h : (ParseJSONList unmarshal response).2 = some err) :
    ∃ code, err = .Sys code := by
  unfold ParseJSONList at h
  split at h
  · simp at h; exact ⟨_, h.symm⟩
  · simp at h

/-- From the prompt on, the only error built by the program is the abort. -/
theorem afterGate_New (w : World) (msg : String)
    (h : (afterGate w).1 = .ret (some (.New msg))) : Error.New msg = errAborted := by
  unfold afterGate at h
  split at h
  · simp at h
  · simp at h; exact h.symm
  · split at h
    · simp at h
    · split at h
      · rename_i e he
        simp at h; subst h
        obtain ⟨c, hc⟩ := sysErr_isSys _ _ he
        simp at hc
      · split at h
        · rename_i b e hp
          simp at h; subst h
          obtain ⟨c, hc⟩ := ParseJSONList_isSys w.jsonUnmarshal _ _ (by rw [hp])
          cases hc
        · split at h
          · rename_i e tr hd
            simp at h; subst h
            obtain ⟨c, hc⟩ := downloadEach_isSys w.fetch 0 _ _ (by rw [hd])
            cases hc
          · split at h
            · rename_i e he
              simp at h; subst h
              obtain ⟨c, hc⟩ := sysErr_isSys _ _ he
              simp at hc
            · simp at h

theorem errRecent_ne_errAborted : errRecent ≠ errAborted := by
  unfold errRecent errAborted
  decide

theorem afterGate_ne_recent (w : World) : (afterGate w).1 ≠ .ret (some errRecent) := by
  intro h
  exact errRecent_ne_errAborted (afterGate_New w _ h)

/-! ## Lemmas on the freshness gate -/

/-- The run when the log file is missing. -/
theorem DownloadBulkData_missing (w : World) (hstat : w.statLog = some ENOENT) :
    DownloadBulkData w = ((afterGate w).1, [.osStat logName] ++ (afterGate w).2) := by
  unfold DownloadBulkData
  simp [hstat, sysErr, IsNotExist]

/-- The run when the log file is read. -/
theorem DownloadBulkData_read (w : World) (contents : String) (hstat : w.statLog = none)
    (hopen : w.openLog = none) (hread : w.readLog = .ok contents) :
    DownloadBulkData w =
      if Hours (w.nowCheck.Sub (parsedDate w contents)) < 24 then
        (.ret (some errRecent),
          [.osStat logName, .osOpen logName, .readAllFile logName, .closeFile logName])
      else
        ((afterGate w).1,
          [.osStat logName, .osOpen logName, .readAllFile logName] ++ (afterGate w).2
            ++ [.closeFile logName]) := by
  unfold DownloadBulkData
  simp [hstat, hopen, hread, sysErr]

/-- A run that passes the gate is the rest of the function between the
events of the gate. -/
theorem DownloadBulkData_passed (w : World) (hgate : gatePasses w) :
    ∃ pre post, DownloadBulkData w = ((afterGate w).1, pre ++ (afterGate w).2 ++ post)
      ∧ (∀ ev ∈ pre, ev.isGate = true) ∧ (∀ ev ∈ post, ev.isGate = true)
      ∧ pre.head? = some (.osStat logName) := by
  rcases hgate with hstat | ⟨contents, hstat, hopen, hread, hstale⟩
  · refine ⟨[.osStat logName], [], ?_, ?_, ?_, rfl⟩
    · rw [DownloadBulkData_missing w hstat]; simp
    · intro ev hev; simp at hev; subst hev; rfl
    · intro ev hev; simp at hev
  · refine ⟨[.osStat logName, .osOpen logName, .readAllFile logName], [.closeFile logName],
      ?_, ?_, ?_, rfl⟩
    · rw [DownloadBulkData_read w contents hstat hopen hread, if_neg hstale]
    · intro ev hev; simp at hev; rcases hev with h | h | h <;> subst h <;> rfl
    · intro ev hev; simp at hev; subst hev; rfl

theorem isGate_not_other (ev : Event) (h : ev.isGate = true) :
    ev.isPrompt = false ∧ ev.isNetwork = false ∧ ev.isFetch = false ∧ ev.isWrite = false
      ∧ ev.touchesLog = false := by
  cases ev <;> simp [Event.isGate] at h <;>
    simp [Event.isPrompt, Event.isNetwork, Event.isFetch, Event.isWrite, Event.touchesLog]

theorem isPrompt_not_other (ev : Event) (h : ev.isPrompt = true) :
    ev.isNetwork = false ∧ ev.isFetch = false ∧ ev.isWrite = false
      ∧ ev.touchesLog = false := by
  cases ev <;> simp [Event.isPrompt] at h <;>
    simp [Event.isNetwork, Event.isFetch, Event.isWrite, Event.touchesLog]

/-- The rest of the function does not read the clock of the freshness test. -/
theorem afterGate_nowCheck (w : World) (now : Time) :
    afterGate { w with nowCheck := now } = afterGate w := rfl

/-! ## The prompt, case by case -/

theorem PromptYN_yes (prompt text : String) (rest : List String) (tl : List Char)
    (h : text.data = 'y' :: tl) : (PromptYN prompt (text :: rest)).1 = .ret true := by
  unfold PromptYN
  simp [h]

theorem PromptYN_no (prompt text : String) (rest : List String) (tl : List Char)
    (h : text.data = 'n' :: tl) : (PromptYN prompt (text :: rest)).1 = .ret false := by
  unfold PromptYN
  simp [h]

theorem PromptYN_other (prompt text : String) (rest : List String) (c : Char) (tl : List Char)
    (h : text.data = c :: tl) (hy : c ≠ 'y') (hn : c ≠ 'n') :
    (PromptYN prompt (text :: rest)).1 = (PromptYN prompt rest).1 := by
  conv_lhs => unfold PromptYN
  simp [h, hy, hn]

/-! ## Lemmas on the fetch loop -/

theorem fetchCalls_append (a b : List Event) :
    fetchCalls (a ++ b) = fetchCalls a ++ fetchCalls b := by
  induction a with
  | nil => rfl
  | cons ev a ih => cases ev <;> simp [fetchCalls, ih]

theorem fetchCalls_of_no_call (tr : List Event)
    (h : ∀ ev ∈ tr, ∀ p u, ev ≠ .callDownloadFile p u) : fetchCalls tr = [] := by
  induction tr with
  | nil => rfl
  | cons ev tr ih =>
    have htl : fetchCalls tr = [] := ih (fun e he => h e (List.mem_cons_of_mem _ he))
    cases ev <;> simp [fetchCalls, htl]
    exact h _ (List.mem_cons_self _ _) _ _ rfl

theorem fetchCalls_of_isGate (tr : List Event) (h : ∀ ev ∈ tr, ev.isGate = true) :
    fetchCalls tr = [] := by
  apply fetchCalls_of_no_call
  intro ev hev p u heq
  have := h ev hev
  subst heq
  simp [Event.isGate] at this

theorem fetchCalls_of_isPrompt (tr : List Event) (h : ∀ ev ∈ tr, ev.isPrompt = true) :
    fetchCalls tr = [] := by
  apply fetchCalls_of_no_call
  intro ev hev p u heq
  have := h ev hev
  subst heq
  simp [Event.isPrompt] at this

/-- The trace of `DownloadFile` is one of five lists. -/
theorem DownloadFile_trace (path url : String) (env : FetchEnv) :
    ∃ tl, (DownloadFile path url env).2 = .callDownloadFile path url :: .httpGet url :: tl
      ∧ fetchCalls tl = []
      ∧ ∀ ev ∈ tl, ev = .osStat path ∨ ev = .closeBody url ∨ ev = .osMkdirAllDir path
          ∨ ev = .osCreate path ∨ (∃ body, ev = .ioCopy path body) ∨ ev = .closeFile path := by
  unfold DownloadFile path_exists
  cases env.get with
  | error err => exact ⟨[], rfl, rfl, by simp⟩
  | ok resp =>
    cases hs : sysErr env.stat with
    | none =>
      cases hc : sysErr env.create with
      | some err => exact ⟨_, rfl, rfl, by simp⟩
      | none => exact ⟨_, rfl, rfl, by simp⟩
    | some err =>
      by_cases hne : IsNotExist err = true
      · cases hc : sysErr env.create with
        | some err2 => simp only [hne, if_true]; exact ⟨_, rfl, rfl, by simp⟩
        | none => simp only [hne, if_true]; exact ⟨_, rfl, rfl, by simp⟩
      · simp only [hne]; exact ⟨_, rfl, rfl, by simp⟩

theorem DownloadFile_fetchCalls (path url : String) (env : FetchEnv) :
    fetchCalls (DownloadFile path url env).2 = [(path, url)] := by
  obtain ⟨tl, htr, hcalls, _⟩ := DownloadFile_trace path url env
  rw [htr]
  simp [fetchCalls, hcalls]

/-- A fetched file is never the log file: its name ends in `.json`. -/
theorem fetchPath_ne_logName (name : String) : SaveLocation ++ name ++ ".json" ≠ logName := by
  intro h
  have h2 := congrArg (fun s : String => s.data.reverse.head?) h
  simp [logName, SaveLocation, BulkLog] at h2

theorem DownloadFile_no_log (name url : String) (env : FetchEnv) :
    ∀ ev ∈ (DownloadFile (SaveLocation ++ name ++ ".json") url env).2,
      ev.touchesLog = false := by
  obtain ⟨tl, htr, _, htl⟩ := DownloadFile_trace (SaveLocation ++ name ++ ".json") url env
  have hne := fetchPath_ne_logName name
  intro ev hev
  rw [htr] at hev
  simp only [List.mem_cons] at hev
  rcases hev with h | h | h
  · subst h; rfl
  · subst h; rfl
  · rcases htl ev h with h | h | h | h | ⟨body, h⟩ | h <;> subst h <;>
      simp [Event.touchesLog, hne]

theorem downloadEach_no_log (fetch : Nat → FetchEnv) (i : Nat) (ds : List JSONElement) :
    ∀ ev ∈ (downloadEach fetch i ds).2, ev.touchesLog = false := by
  induction ds generalizing i with
  | nil => intro ev hev; simp [downloadEach] at hev
  | cons d rest ih =>
    intro ev hev
    unfold downloadEach at hev
    split at hev
    · rename_i err tr hd
      have := DownloadFile_no_log d.Name d.Download_URI (fetch i) ev
      rw [hd] at this
      exact this hev
    · rename_i tr hd
      simp only [List.mem_append] at hev
      rcases hev with h | h
      · have := DownloadFile_no_log d.Name d.Download_URI (fetch i) ev
        rw [hd] at this
        exact this h
      · exact ih (i + 1) ev h

/-- When every fetch succeeds the loop calls `DownloadFile` once per
descriptor, in order. -/
theorem downloadEach_all_ok (fetch : Nat → FetchEnv) (i : Nat) (ds : List JSONElement)
    (hok : ∀ j d, ds[j]? = some d →
      (DownloadFile (fetchTarget d).1 (fetchTarget d).2 (fetch (i + j))).1 = none) :
    (downloadEach fetch i ds).1 = none
      ∧ fetchCalls (downloadEach fetch i ds).2 = ds.map fetchTarget := by
  induction ds generalizing i with
  | nil => exact ⟨rfl, rfl⟩
  | cons d rest ih =>
    have h0 := hok 0 d (by simp)
    have hrest := ih (i + 1) (fun j dj hj => by
      have := hok (j + 1) dj (by simpa using hj)
      rw [show i + (j + 1) = i + 1 + j by omega] at this
      exact this)
    have hcalls := DownloadFile_fetchCalls (fetchTarget d).1 (fetchTarget d).2 (fetch i)
    unfold downloadEach
    simp only [fetchTarget, Nat.add_zero] at h0 hcalls
    split
    · rename_i err tr hd; rw [hd] at h0; simp at h0
    · rename_i tr hd
      rw [hd] at hcalls
      simp only at hcalls
      refine ⟨hrest.1, ?_⟩
      simp only [fetchCalls_append, hcalls, hrest.2, List.map_cons, fetchTarget]
      rfl

/-- When the fetch number `k` (from 0) is the first to fail, the loop ends
with its error after calling `DownloadFile` for the descriptors `0..k`. -/
theorem downloadEach_fails_at (fetch : Nat → FetchEnv) (i : Nat) (ds : List JSONElement)
    (k : Nat) (dk : JSONElement) (e : Error) (hdk : ds[k]? = some dk)
    (hok : ∀ j d, j < k → ds[j]? = some d →
      (DownloadFile (fetchTarget d).1 (fetchTarget d).2 (fetch (i + j))).1 = none)
    (hfail : (DownloadFile (fetchTarget dk).1 (fetchTarget dk).2 (fetch (i + k))).1 = some e) :
    (downloadEach fetch i ds).1 = some e
      ∧ fetchCalls (downloadEach fetch i ds).2 = (ds.take (k + 1)).map fetchTarget := by
  induction ds generalizing i k with
  | nil => simp at hdk
  | cons d rest ih =>
    have hcalls := DownloadFile_fetchCalls (fetchTarget d).1 (fetchTarget d).2 (fetch i)
    simp only [fetchTarget] at hcalls
    cases k with
    | zero =>
      simp at hdk
      subst hdk
      simp only [fetchTarget, Nat.add_zero] at hfail
      unfold downloadEach
      split
      · rename_i err tr hd
        rw [hd] at hfail hcalls
        simp only at hfail hcalls
        simp only [Option.some.injEq] at hfail
        subst hfail
        exact ⟨rfl, by simp [hcalls, fetchTarget]⟩
      · rename_i tr hd; rw [hd] at hfail; simp at hfail
    | succ k =>
      have h0 := hok 0 d (by omega) (by simp)
      simp only [fetchTarget, Nat.add_zero] at h0
      have hrest := ih (i + 1) k (by simpa using hdk)
        (fun j dj hj hdj => by
          have := hok (j + 1) dj (by omega) (by simpa using hdj)
          rw [show i + (j + 1) = i + 1 + j by omega] at this
          exact this)
        (by rw [show i + 1 + k = i + (k + 1) by omega]; exact hfail)
      unfold downloadEach
      split
      · rename_i err tr hd; rw [hd] at h0; simp at h0
      · rename_i tr hd
        rw [hd] at hcalls
        simp only at hcalls
        refine ⟨hrest.1, ?_⟩
        simp only [fetchCalls_append, hcalls, hrest.2, List.take_succ_cons, List.map_cons,
          fetchTarget]
        rfl

/-- The rest of the function once the user has agreed and the listing has
been fetched, read and decoded into `blob`. -/
theorem afterGate_listing (w : World) (resp : Response) (blob : ListObject)
    (hyes : (PromptYN promptText w.stdin).1 = .ret true)
    (hget : w.listingGet = .ok resp) (hread : w.listingRead = none)
    (hdec : w.jsonUnmarshal resp.Body = .ok blob) :
    afterGate w =
      match (downloadEach w.fetch 0 blob.Data).1, sysErr w.createLog with
      | some err, _ =>
        (.ret (some err), (PromptYN promptText w.stdin).2
          ++ [.httpGet BulkLocation, .readAllBody BulkLocation]
          ++ (downloadEach w.fetch 0 blob.Data).2)
      | none, some err =>
        (.ret (some err), (PromptYN promptText w.stdin).2
          ++ [.httpGet BulkLocation, .readAllBody BulkLocation]
          ++ (downloadEach w.fetch 0 blob.Data).2 ++ [.osCreate logName])
      | none, none =>
        (.ret none, (PromptYN promptText w.stdin).2
          ++ [.httpGet BulkLocation, .readAllBody BulkLocation]
          ++ (downloadEach w.fetch 0 blob.Data).2 ++ [.osCreate logName,
            .writeString logName (w.timeFormat w.nowWrite), .closeFile logName]) := by
  unfold afterGate
  split
  · rename_i h; rw [h] at hyes; simp at hyes
  · rename_i h; rw [h] at hyes; simp at hyes
  · rename_i tr h
    rw [h]
    simp only [hget, hread, sysErr, Option.map_none', ParseJSONList, hdec]
    cases hd : downloadEach w.fetch 0 blob.Data with
    | mk r trLoop =>
      cases r with
      | some err => rfl
      | none =>
        cases w.createLog with
        | none => rfl
        | some c => rfl

/-- A run that returns `nil` has written the timestamp `Format(UnixDate)` of
its clock into the log file. -/
theorem success_writes_timestamp (w : World) (hdone : (DownloadBulkData w).1 = .ret none) :
    Event.writeString logName (w.timeFormat w.nowWrite) ∈ (DownloadBulkData w).2 := by
  have hafter : (afterGate w).1 = .ret none →
      Event.writeString logName (w.timeFormat w.nowWrite) ∈ (afterGate w).2 := by
    intro h
    unfold afterGate at h ⊢
    split at h
    · simp at h
    · simp [errAborted] at h
    · split at h
      · simp at h
      · split at h
        · simp at h
        · split at h
          · simp at h
          · split at h
            · simp at h
            · split at h
              · simp at h
              · simp [*]
  unfold DownloadBulkData at hdone ⊢
  split at hdone
  · split_ifs at hdone with hne
    · simp only at hdone
      simp [*, hafter hdone]
    · simp at hdone
  · split at hdone
    · simp at hdone
    · split at hdone
      · simp at hdone
      · split_ifs at hdone with hfr
        · simp [errRecent] at hdone
        · simp only at hdone
          simp [*, hafter hdone]

theorem truncSecond_le (t : Time) :
    t.truncSecond.unixNano ≤ t.unixNano ∧ t.unixNano - t.truncSecond.unixNano < Second := by
  simp only [Time.truncSecond, Time.unixSec, Second]
  omega

/-- On a machine in zone UTC and for the years 0 to 9999: after a run that
returns `nil` at `t0`, a later run that reads the log at a time `t1` with
`t1 - t0 ≤ 24 h - 1 s` is refused. -/
theorem later_run_refused_utc (w1 w2 : World)
    (hfmt : w1.timeFormat = formatUnixDate) (hparse : w2.timeParse = parseUnixDate)
    (hlo : -62167219200 ≤ w1.nowWrite.unixSec) (hhi : w1.nowWrite.unixSec < 253402300800)
    (hstat : w2.statLog = none) (hopen : w2.openLog = none)
    (hread : w2.readLog = .ok (w1.timeFormat w1.nowWrite))
    (hlt : w2.nowCheck.unixNano - w1.nowWrite.unixNano ≤ 24 * Hour - Second) :
    (DownloadBulkData w2).1 = .ret (some errRecent) := by
  have hback := unixDate_round_trip w1.nowWrite hlo hhi
  have hdate : parsedDate w2 (w1.timeFormat w1.nowWrite) = w1.nowWrite.truncSecond := by
    simp [parsedDate, hparse, hfmt, hback]
  have htr := truncSecond_le w1.nowWrite
  rw [DownloadBulkData_read w2 _ hstat hopen hread, hdate,
    if_pos ((fresh_test_iff _ _).mpr (by omega))]

/-- The calls from the prompt on start with the question and the console read. -/
theorem afterGate_trace_starts (w : World) :
    ∃ rest, (afterGate w).2
      = .fmtPrint (promptText ++ " [y/n]: ") :: .stdinReadString :: rest := by
  obtain ⟨r, hr⟩ := PromptYN_trace_starts promptText w.stdin
  unfold afterGate
  split
  · rename_i h; rw [h] at hr; exact ⟨r, hr⟩
  · rename_i h; rw [h] at hr; exact ⟨r, hr⟩
  · rename_i tr h
    rw [h] at hr
    simp only at hr
    subst hr
    split
    · exact ⟨_, rfl⟩
    · split
      · exact ⟨_, rfl⟩
      · split
        · exact ⟨_, rfl⟩
        · split
          · exact ⟨_, rfl⟩
          · split
            · exact ⟨_, rfl⟩
            · exact ⟨_, rfl⟩

theorem printedRulings_map (rulings : List Ruling) (tl : List Event)
    (htl : printedRulings tl = []) :
    printedRulings (rulings.map Event.fmtPrintlnRuling ++ tl) = rulings := by
  induction rulings with
  | nil => simpa using htl
  | cons r rest ih => simp [printedRulings, ih]

/-! ## Lemmas on the text left in the log -/

/-- A run whose write of the timestamp fails leaves no known text in the log,
although it returns `nil`. -/
theorem writtenLog_diskFullRun :
    (DownloadBulkData diskFullRun).1 = .ret none ∧ writtenLog diskFullRun = none := by
  exact ⟨by decide, rfl⟩

/-! ## Claims -/

/-- C1: when the log file is read and its content parses in the Unix date
layout to a time `T`, the run is refused with the "updated within the last 24
hours" error if and only if `now - T < 24 hours`; at exactly 24 hours it is
not refused. -/
theorem C1_refused_iff_log_younger_than_24h (w : World) (contents : String) (T : Time)
    (hstat : w.statLog = none) (hopen : w.openLog = none)
    (hread : w.readLog = .ok contents) (hparse : w.timeParse contents = .ok T) :
    ((DownloadBulkData w).1 = .ret (some errRecent)
        ↔ w.nowCheck.unixNano - T.unixNano < 24 * Hour)
      ∧ (w.nowCheck.unixNano - T.unixNano = 24 * Hour
        → (DownloadBulkData w).1 ≠ .ret (some errRecent)) := by
  have hdate : parsedDate w contents = T := by simp [parsedDate, hparse]
  have hiff : (DownloadBulkData w).1 = .ret (some errRecent)
      ↔ w.nowCheck.unixNano - T.unixNano < 24 * Hour := by
    rw [DownloadBulkData_read w contents hstat hopen hread, hdate, ← fresh_test_iff]
    split_ifs with h
    · simp [h]
    · simp only [h, iff_false]
      exact afterGate_ne_recent w
  refine ⟨hiff, ?_⟩
  intro heq hrec
  have := hiff.mp hrec
  omega

/-- C1, at a run one hour after the time in the log: it is refused. -/
theorem C1_witness :
    ((DownloadBulkData (laterRun ⟨1700003600000000000⟩ [])).1 = .ret (some errRecent)
        ↔ (1700003600000000000 : Int) - 1700000000000000000 < 24 * Hour)
      ∧ ((1700003600000000000 : Int) - 1700000000000000000 = 24 * Hour
        → (DownloadBulkData (laterRun ⟨1700003600000000000⟩ [])).1 ≠ .ret (some errRecent)) :=
  C1_refused_iff_log_younger_than_24h (laterRun ⟨1700003600000000000⟩ [])
    "Tue Nov 14 22:13:20 UTC 2023" ⟨1700000000000000000⟩ rfl rfl rfl rfl

/-- C3: when the test of line 111 finds the log fresh, the run returns the
"updated recently" error and its only calls are the stat, open, read and close
of the log file: no prompt, no GET, no fetch, no write. -/
theorem C3_fresh_log_stops_before_any_effect (w : World) (contents : String)
    (hstat : w.statLog = none) (hopen : w.openLog = none) (hread : w.readLog = .ok contents)
    (hfresh : Hours (w.nowCheck.Sub (parsedDate w contents)) < 24) :
    DownloadBulkData w = (.ret (some errRecent),
        [.osStat logName, .osOpen logName, .readAllFile logName, .closeFile logName])
      ∧ ∀ ev ∈ (DownloadBulkData w).2, ev.isPrompt = false ∧ ev.isNetwork = false
          ∧ ev.isFetch = false ∧ ev.isWrite = false ∧ ev.touchesLog = false := by
  have hrun := DownloadBulkData_read w contents hstat hopen hread
  rw [if_pos hfresh] at hrun
  refine ⟨hrun, ?_⟩
  intro ev hev
  rw [hrun] at hev
  apply isGate_not_other
  simp at hev
  rcases hev with h | h | h | h <;> subst h <;> rfl

/-- C3, at a run one hour after the time in the log. -/
theorem C3_witness :
    DownloadBulkData (laterRun ⟨1700003600000000000⟩ ["y\n"]) = (.ret (some errRecent),
        [.osStat logName, .osOpen logName, .readAllFile logName, .closeFile logName])
      ∧ ∀ ev ∈ (DownloadBulkData (laterRun ⟨1700003600000000000⟩ ["y\n"])).2,
          ev.isPrompt = false ∧ ev.isNetwork = false
          ∧ ev.isFetch = false ∧ ev.isWrite = false ∧ ev.touchesLog = false :=
  C3_fresh_log_stops_before_any_effect (laterRun ⟨1700003600000000000⟩ ["y\n"])
    "Tue Nov 14 22:13:20 UTC 2023" rfl rfl rfl ((fresh_test_iff _ _).mpr (by decide))

/-- C4: when the run reaches the loop over the `n` decoded descriptors, the
fetches `1..k-1` succeed and the fetch `k` fails with `e`, the run returns `e`,
the calls of `DownloadFile` are those of the descriptors `1..k` in list order
(none for `k+1..n`), and no call creates or writes the log file.  The program
has no call that removes a file, so the files fetched stay in place. -/
theorem C4_failed_fetch_ends_the_sweep (w : World) (resp : Response) (blob : ListObject)
    (k : Nat) (dk : JSONElement) (e : Error)
    (hgate : gatePasses w) (hyes : (PromptYN promptText w.stdin).1 = .ret true)
    (hget : w.listingGet = .ok resp) (hread : w.listingRead = none)
    (hdec : w.jsonUnmarshal resp.Body = .ok blob)
    (hk : 1 ≤ k) (hdk : blob.Data[k - 1]? = some dk)
    (hok : ∀ j d, j < k - 1 → blob.Data[j]? = some d →
      (DownloadFile (fetchTarget d).1 (fetchTarget d).2 (w.fetch j)).1 = none)
    (hfail : (DownloadFile (fetchTarget dk).1 (fetchTarget dk).2 (w.fetch (k - 1))).1 = some e) :
    (DownloadBulkData w).1 = .ret (some e)
      ∧ fetchCalls (DownloadBulkData w).2 = (blob.Data.take k).map fetchTarget
      ∧ ∀ ev ∈ (DownloadBulkData w).2, ev.touchesLog = false := by
  obtain ⟨pre, post, hrun, hpre, hpost, _⟩ := DownloadBulkData_passed w hgate
  obtain ⟨hres, hcalls⟩ := downloadEach_fails_at w.fetch 0 blob.Data (k - 1) dk e hdk
    (fun j d hj hd => by rw [Nat.zero_add]; exact hok j d hj hd)
    (by rw [Nat.zero_add]; exact hfail)
  have hafter := afterGate_listing w resp blob hyes hget hread hdec
  rw [hres] at hafter
  simp only at hafter
  rw [hrun, hafter]
  refine ⟨rfl, ?_, ?_⟩
  · simp only [fetchCalls_append, fetchCalls_of_isGate pre hpre, fetchCalls_of_isGate post hpost,
      fetchCalls_of_isPrompt _ (PromptYN_trace_isPrompt _ _), hcalls]
    simp [fetchCalls, show k - 1 + 1 = k by omega]
  · intro ev hev
    simp only [List.mem_append, List.mem_cons, List.mem_singleton] at hev
    rcases hev with (h | ((h | h) | h)) | h
    · exact (isGate_not_other ev (hpre ev h)).2.2.2.2
    · exact (isPrompt_not_other ev (PromptYN_trace_isPrompt _ _ ev h)).2.2.2
    · rcases h with h | h | h
      · subst h; rfl
      · subst h; rfl
      · simp at h
    · exact downloadEach_no_log _ _ _ ev h
    · exact (isGate_not_other ev (hpost ev h)).2.2.2.2

/-- C4, at a run over three descriptors whose second fetch fails. -/
theorem C4_witness :
    (DownloadBulkData secondFetchFails).1 = .ret (some (.Sys 111))
      ∧ fetchCalls (DownloadBulkData secondFetchFails).2 = (sampleData.take 2).map fetchTarget
      ∧ ∀ ev ∈ (DownloadBulkData secondFetchFails).2, ev.touchesLog = false :=
  C4_failed_fetch_ends_the_sweep secondFetchFails ⟨200, "listing"⟩
    ⟨"list", sampleData, false, "", 0, []⟩ 2
    ⟨"Rulings", "https://data.scryfall.io/rulings.json"⟩ (.Sys 111)
    (Or.inl rfl) (by decide) rfl rfl rfl (by decide) rfl
    (fun j d hj hd => by
      have hj0 : j = 0 := by omega
      subst hj0
      rfl)
    rfl

/-- C5: when the run reaches the loop and every fetch succeeds, `DownloadFile`
is called exactly once per decoded descriptor, in list order, with path
`SaveLocation + Name + ".json"` and URL `Download_URI`; the creation of the log
file comes after all of them, nothing touches the log before it, and the
timestamp is written right after it; for the empty list no fetch is made. -/
theorem C5_one_fetch_per_descriptor_then_log (w : World) (resp : Response) (blob : ListObject)
    (hgate : gatePasses w) (hyes : (PromptYN promptText w.stdin).1 = .ret true)
    (hget : w.listingGet = .ok resp) (hread : w.listingRead = none)
    (hdec : w.jsonUnmarshal resp.Body = .ok blob)
    (hok : ∀ j d, blob.Data[j]? = some d →
      (DownloadFile (fetchTarget d).1 (fetchTarget d).2 (w.fetch j)).1 = none) :
    fetchCalls (DownloadBulkData w).2
        = blob.Data.map (fun d => (SaveLocation ++ d.Name ++ ".json", d.Download_URI))
      ∧ (∃ before after, (DownloadBulkData w).2 = before ++ .osCreate logName :: after
          ∧ fetchCalls before = blob.Data.map fetchTarget
          ∧ (∀ ev ∈ before, ev.touchesLog = false)
          ∧ fetchCalls after = []
          ∧ (w.createLog = none →
              ∃ rest, after = .writeString logName (w.timeFormat w.nowWrite) :: rest))
      ∧ (blob.Data = [] → fetchCalls (DownloadBulkData w).2 = []) := by
  obtain ⟨pre, post, hrun, hpre, hpost, _⟩ := DownloadBulkData_passed w hgate
  obtain ⟨hres, hcalls⟩ := downloadEach_all_ok w.fetch 0 blob.Data
    (fun j d hd => by rw [Nat.zero_add]; exact hok j d hd)
  have hafter := afterGate_listing w resp blob hyes hget hread hdec
  rw [hres] at hafter
  have hbefore : fetchCalls (pre ++ ((PromptYN promptText w.stdin).2
        ++ [.httpGet BulkLocation, .readAllBody BulkLocation]
        ++ (downloadEach w.fetch 0 blob.Data).2)) = blob.Data.map fetchTarget := by
    simp only [fetchCalls_append, fetchCalls_of_isGate pre hpre,
      fetchCalls_of_isPrompt _ (PromptYN_trace_isPrompt _ _), hcalls]
    simp [fetchCalls]
  have hclean : ∀ ev ∈ pre ++ ((PromptYN promptText w.stdin).2
        ++ [.httpGet BulkLocation, .readAllBody BulkLocation]
        ++ (downloadEach w.fetch 0 blob.Data).2), ev.touchesLog = false := by
    intro ev hev
    simp only [List.mem_append, List.mem_cons, List.mem_singleton] at hev
    rcases hev with h | ((h | h) | h)
    · exact (isGate_not_other ev (hpre ev h)).2.2.2.2
    · exact (isPrompt_not_other ev (PromptYN_trace_isPrompt _ _ ev h)).2.2.2
    · rcases h with h | h | h
      · subst h; rfl
      · subst h; rfl
      · simp at h
    · exact downloadEach_no_log _ _ _ ev h
  have hpostc := fetchCalls_of_isGate post hpost
  have hsplit : ∃ before after, (DownloadBulkData w).2 = before ++ .osCreate logName :: after
      ∧ fetchCalls before = blob.Data.map fetchTarget
      ∧ (∀ ev ∈ before, ev.touchesLog = false)
      ∧ fetchCalls after = []
      ∧ (w.createLog = none →
          ∃ rest, after = .writeString logName (w.timeFormat w.nowWrite) :: rest) := by
    cases hc : w.createLog with
    | some c =>
      simp only [hc, sysErr, Option.map_some'] at hafter
      refine ⟨_, post, ?_, hbefore, hclean, hpostc, by simp⟩
      rw [hrun, hafter]
      simp
    | none =>
      simp only [hc, sysErr, Option.map_none'] at hafter
      refine ⟨_, [.writeString logName (w.timeFormat w.nowWrite), .closeFile logName] ++ post,
        ?_, hbefore, hclean, ?_, fun _ => ⟨_, rfl⟩⟩
      · rw [hrun, hafter]
        simp
      · simp [fetchCalls_append, hpostc, fetchCalls]
  have hall : fetchCalls (DownloadBulkData w).2 = blob.Data.map fetchTarget := by
    obtain ⟨before, after, htr, hb, _, ha, _⟩ := hsplit
    rw [htr, fetchCalls_append, hb]
    simp [fetchCalls, ha]
  refine ⟨hall, hsplit, ?_⟩
  intro hempty
  rw [hall, hempty]
  rfl

/-- C5, at the sample run over three descriptors. -/
theorem C5_witness :
    fetchCalls (DownloadBulkData firstRun).2
        = sampleData.map (fun d => (SaveLocation ++ d.Name ++ ".json", d.Download_URI))
      ∧ (∃ before after, (DownloadBulkData firstRun).2 = before ++ .osCreate logName :: after
          ∧ fetchCalls before = sampleData.map fetchTarget
          ∧ (∀ ev ∈ before, ev.touchesLog = false)
          ∧ fetchCalls after = []
          ∧ (firstRun.createLog = none →
              ∃ rest, after = .writeString logName (firstRun.timeFormat firstRun.nowWrite) :: rest))
      ∧ (sampleData = [] → fetchCalls (DownloadBulkData firstRun).2 = []) :=
  C5_one_fetch_per_descriptor_then_log firstRun ⟨200, "listing"⟩
    ⟨"list", sampleData, false, "", 0, []⟩ (Or.inl rfl) (by decide) rfl rfl rfl
    (fun j d hd => by
      have hj : j < 3 := by
        by_contra hge
        have : sampleData[j]? = none := by
          apply List.getElem?_eq_none
          simp [sampleData]; omega
        rw [this] at hd; simp at hd
      interval_cases j <;> simp [sampleData] at hd <;> subst hd <;> rfl)

/-- C6: at a run whose steps all succeed except the write of the timestamp,
which fails, `DownloadBulkData` returns `nil`: the error of
`file.WriteString` is assigned and `return nil` follows.  No run reads the
result of that write. -/
theorem C6_failed_timestamp_write_returns_nil :
    diskFullRun.writeLog = some 28
      ∧ (DownloadBulkData diskFullRun).1 = .ret none
      ∧ Event.writeString logName "Tue Nov 14 22:13:20 UTC 2023" ∈ (DownloadBulkData diskFullRun).2
      ∧ ∀ (w : World) (err : Option Errno),
          DownloadBulkData { w with writeLog := err } = DownloadBulkData w := by
  refine ⟨rfl, by decide, by decide, fun w err => rfl⟩

/-- C7: when the log file does not exist, the run goes on to the confirmation
prompt whatever the clock reads: its outcome is that of the rest of the
function, it is never the "updated recently" refusal, and the first calls
after the stat are those of the prompt. -/
theorem C7_missing_log_reaches_prompt (w : World) (hstat : w.statLog = some ENOENT) :
    (DownloadBulkData w).1 = (afterGate w).1
      ∧ (DownloadBulkData w).1 ≠ .ret (some errRecent)
      ∧ (∃ rest, (DownloadBulkData w).2 = .osStat logName
          :: .fmtPrint (promptText ++ " [y/n]: ") :: .stdinReadString :: rest)
      ∧ ∀ now, DownloadBulkData { w with nowCheck := now } = DownloadBulkData w := by
  have hrun := DownloadBulkData_missing w hstat
  refine ⟨by rw [hrun], ?_, ?_, ?_⟩
  · rw [hrun]; exact afterGate_ne_recent w
  · have htr : ∃ rest, (afterGate w).2
        = .fmtPrint (promptText ++ " [y/n]: ") :: .stdinReadString :: rest := by
      obtain ⟨r, hr⟩ := PromptYN_trace_starts promptText w.stdin
      unfold afterGate
      split
      · rename_i h; rw [h] at hr; exact ⟨r, hr⟩
      · rename_i h; rw [h] at hr; exact ⟨r, hr⟩
      · rename_i tr h
        rw [h] at hr
        simp only at hr
        subst hr
        split
        · exact ⟨_, rfl⟩
        · split
          · exact ⟨_, rfl⟩
          · split
            · exact ⟨_, rfl⟩
            · split
              · exact ⟨_, rfl⟩
              · split
                · exact ⟨_, rfl⟩
                · exact ⟨_, rfl⟩
    obtain ⟨rest, hrest⟩ := htr
    exact ⟨rest, by rw [hrun, hrest]; rfl⟩
  · intro now
    rw [hrun, DownloadBulkData_missing _ (by exact hstat), afterGate_nowCheck]

/-- C7, at the sample run with a missing log. -/
theorem C7_witness :
    (DownloadBulkData firstRun).1 = (afterGate firstRun).1
      ∧ (DownloadBulkData firstRun).1 ≠ .ret (some errRecent)
      ∧ (∃ rest, (DownloadBulkData firstRun).2 = .osStat logName
          :: .fmtPrint (promptText ++ " [y/n]: ") :: .stdinReadString :: rest)
      ∧ ∀ now, DownloadBulkData { firstRun with nowCheck := now } = DownloadBulkData firstRun :=
  C7_missing_log_reaches_prompt firstRun rfl

/-- C8: when the gate lets the run through and the user declines, the run
returns the "Download aborted by user." error, and no call of the network, of
a file fetch or of a file write is made. -/
theorem C8_declined_prompt_aborts_without_effect (w : World) (hgate : gatePasses w)
    (hno : (PromptYN promptText w.stdin).1 = .ret false) :
    (DownloadBulkData w).1 = .ret (some errAborted)
      ∧ ∀ ev ∈ (DownloadBulkData w).2, ev.isNetwork = false ∧ ev.isFetch = false
          ∧ ev.isWrite = false ∧ ev.touchesLog = false := by
  obtain ⟨pre, post, hrun, hpre, hpost, _⟩ := DownloadBulkData_passed w hgate
  have hafter : afterGate w = (.ret (some errAborted), (PromptYN promptText w.stdin).2) := by
    unfold afterGate
    split
    · rename_i h; rw [h] at hno; simp at hno
    · rename_i h; rw [h]
    · rename_i h; rw [h] at hno; simp at hno
  rw [hrun, hafter]
  refine ⟨rfl, ?_⟩
  intro ev hev
  simp only [List.mem_append] at hev
  rcases hev with (h | h) | h
  · exact (isGate_not_other ev (hpre ev h)).2
  · exact isPrompt_not_other ev (PromptYN_trace_isPrompt _ _ ev h)
  · exact (isGate_not_other ev (hpost ev h)).2

/-- C8, at a run 25 hours after the time in the log, the user answering `n`. -/
theorem C8_witness :
    (DownloadBulkData (laterRun ⟨1700090000000000000⟩ ["n\n"])).1 = .ret (some errAborted)
      ∧ ∀ ev ∈ (DownloadBulkData (laterRun ⟨1700090000000000000⟩ ["n\n"])).2,
          ev.isNetwork = false ∧ ev.isFetch = false
          ∧ ev.isWrite = false ∧ ev.touchesLog = false :=
  C8_declined_prompt_aborts_without_effect (laterRun ⟨1700090000000000000⟩ ["n\n"])
    (Or.inr ⟨"Tue Nov 14 22:13:20 UTC 2023", rfl, rfl, rfl,
      fun h => absurd ((fresh_test_iff _ _).mp h) (by decide)⟩)
    (by decide)

/-- C9: at end of input the console read returns the empty string, and the
inspection `text[0]` of `PromptYN` panics; the same happens after any number
of answers that start with neither `y` nor `n`. -/
theorem C9_empty_read_panics (prompt : String) :
    (PromptYN prompt []).1 = .panic indexPanic
      ∧ (PromptYN prompt [""]).1 = .panic indexPanic
      ∧ (PromptYN prompt ["maybe\n", "\n"]).1 = .panic indexPanic := by
  refine ⟨rfl, rfl, ?_⟩
  rw [PromptYN_other prompt "maybe\n" ["\n"] 'm' "aybe\n".data rfl (by decide) (by decide)]
  rw [PromptYN_other prompt "\n" [] '\n' [] rfl (by decide) (by decide)]
  rfl

/-- C10 fails as stated: the destination does not exist, the directories and
the file can be created, the GET succeeds, and `DownloadFile` returns the
error of `io.Copy`, not `nil`. -/
theorem C10_counterexample :
    brokenBodyFetch.get = .ok ⟨200, "data"⟩
      ∧ brokenBodyFetch.stat = some ENOENT
      ∧ brokenBodyFetch.mkdirAll = none
      ∧ brokenBodyFetch.create = none
      ∧ Event.osMkdirAllDir "save/new/sub/file.json"
          ∈ (DownloadFile "save/new/sub/file.json" "https://host/file.json" brokenBodyFetch).2
      ∧ (DownloadFile "save/new/sub/file.json" "https://host/file.json" brokenBodyFetch).1
          = some (.Sys 104)
      ∧ (DownloadFile "save/new/sub/file.json" "https://host/file.json" brokenBodyFetch).1
          ≠ none := by
  refine ⟨rfl, rfl, rfl, rfl, by decide, by decide, by decide⟩

/-- C10 (as the code has it): when the destination path does not exist, the
GET succeeds, the file can be created and the copy of the body ends without
error, `DownloadFile` calls `os.MkdirAll` on the parent directory of the path
(which creates it and every missing intermediate), then creates the file,
copies the whole response body into it, closes both and returns `nil`. -/
theorem C10_missing_directories_created_and_body_written (path url : String) (env : FetchEnv)
    (resp : Response) (hget : env.get = .ok resp) (hstat : env.stat = some ENOENT)
    (hcreate : env.create = none) (hcopy : env.copy = none) :
    DownloadFile path url env = (none,
      [.callDownloadFile path url, .httpGet url, .osStat path, .osMkdirAllDir path,
        .osCreate path, .ioCopy path resp.Body, .closeFile path, .closeBody url]) := by
  unfold DownloadFile path_exists
  simp [hget, hstat, hcreate, hcopy, sysErr, IsNotExist]

/-- C10, at a fetch into `save/new/sub`, which does not exist yet. -/
theorem C10_witness :
    DownloadFile "save/new/sub/file.json" "https://host/file.json" okFetch = (none,
      [.callDownloadFile "save/new/sub/file.json" "https://host/file.json",
        .httpGet "https://host/file.json", .osStat "save/new/sub/file.json",
        .osMkdirAllDir "save/new/sub/file.json", .osCreate "save/new/sub/file.json",
        .ioCopy "save/new/sub/file.json" "[]", .closeFile "save/new/sub/file.json",
        .closeBody "https://host/file.json"]) :=
  C10_missing_directories_created_and_body_written "save/new/sub/file.json"
    "https://host/file.json" okFetch ⟨200, "[]"⟩ rfl rfl rfl rfl

/-- C11: `CatRulings` returns `nil` if and only if the stat of the path, the
open and the read of the file and the decoding of its content into rulings all
succeed; in that case its calls are the stat, open and read, then one
`fmt.Println` per decoded ruling, in the order of the file and with that
ruling (its five fields) as argument, then the close.  When the path does not
exist it returns the "does not exist" error after the stat alone, and prints
nothing. -/
theorem C11_CatRulings_nil_iff_decoded_and_printed (path : String) (env : CatEnv) :
    ((CatRulings path env).1 = none ↔
        env.stat = none ∧ env.openFile = none
          ∧ ∃ contents rulings, env.read = .ok contents
              ∧ env.jsonUnmarshal contents = .ok rulings)
      ∧ (∀ contents rulings, env.stat = none → env.openFile = none
          → env.read = .ok contents → env.jsonUnmarshal contents = .ok rulings →
          (CatRulings path env).2 = [.osStat path, .osOpen path, .readAllFile path]
              ++ rulings.map Event.fmtPrintlnRuling ++ [.closeFile path]
            ∧ printedRulings (CatRulings path env).2 = rulings)
      ∧ (env.stat = some ENOENT →
          CatRulings path env = (some (errNoFile path), [.osStat path])
            ∧ ∀ ev ∈ (CatRulings path env).2, ev.isPrint = false) := by
  refine ⟨?_, ?_, ?_⟩
  · constructor
    · intro h
      unfold CatRulings at h
      cases hs : env.stat with
      | some c =>
        simp only [hs, sysErr, Option.map_some'] at h
        split_ifs at h
      | none =>
        cases ho : env.openFile with
        | some c => simp [hs, ho, sysErr] at h
        | none =>
          cases hr : env.read with
          | error c => simp [hs, ho, hr, sysErr] at h
          | ok contents =>
            cases hu : env.jsonUnmarshal contents with
            | error c => simp [hs, ho, hr, hu, sysErr] at h
            | ok rulings => exact ⟨rfl, rfl, contents, rulings, rfl, hu⟩
    · rintro ⟨hs, ho, contents, rulings, hr, hu⟩
      unfold CatRulings
      simp [hs, ho, hr, hu, sysErr]
  · intro contents rulings hs ho hr hu
    have htr : (CatRulings path env).2 = [.osStat path, .osOpen path, .readAllFile path]
        ++ rulings.map Event.fmtPrintlnRuling ++ [.closeFile path] := by
      unfold CatRulings
      simp [hs, ho, hr, hu, sysErr]
    refine ⟨htr, ?_⟩
    rw [htr]
    simp only [List.append_assoc, List.cons_append, List.nil_append, printedRulings]
    exact printedRulings_map rulings [.closeFile path] rfl
  · intro hs
    have hrun : CatRulings path env = (some (errNoFile path), [.osStat path]) := by
      unfold CatRulings
      simp [hs, sysErr, IsNotExist]
    refine ⟨hrun, ?_⟩
    intro ev hev
    rw [hrun] at hev
    simp at hev
    subst hev
    rfl

/-- C11, at a file with the one ruling of the sample: the call returns `nil`,
prints that ruling once, and the text of the line carries its five fields. -/
theorem C11_witness :
    (((CatRulings "D:/Scryfall/Rulings.json" sampleCat).1 = none ↔
        sampleCat.stat = none ∧ sampleCat.openFile = none
          ∧ ∃ contents rulings, sampleCat.read = .ok contents
              ∧ sampleCat.jsonUnmarshal contents = .ok rulings)
      ∧ (∀ contents rulings, sampleCat.stat = none → sampleCat.openFile = none
          → sampleCat.read = .ok contents → sampleCat.jsonUnmarshal contents = .ok rulings →
          (CatRulings "D:/Scryfall/Rulings.json" sampleCat).2
              = [.osStat "D:/Scryfall/Rulings.json", .osOpen "D:/Scryfall/Rulings.json",
                  .readAllFile "D:/Scryfall/Rulings.json"]
              ++ rulings.map Event.fmtPrintlnRuling ++ [.closeFile "D:/Scryfall/Rulings.json"]
            ∧ printedRulings (CatRulings "D:/Scryfall/Rulings.json" sampleCat).2 = rulings)
      ∧ (sampleCat.stat = some ENOENT →
          CatRulings "D:/Scryfall/Rulings.json" sampleCat
              = (some (errNoFile "D:/Scryfall/Rulings.json"),
                  [.osStat "D:/Scryfall/Rulings.json"])
            ∧ ∀ ev ∈ (CatRulings "D:/Scryfall/Rulings.json" sampleCat).2, ev.isPrint = false))
      ∧ (CatRulings "D:/Scryfall/Rulings.json" sampleCat).1 = none
      ∧ printedRulings (CatRulings "D:/Scryfall/Rulings.json" sampleCat).2 = [sampleRuling]
      ∧ rulingText sampleRuling = "\x7bruling abc wotc 2020-01-01 test\x7d" :=
  ⟨C11_CatRulings_nil_iff_decoded_and_printed "D:/Scryfall/Rulings.json" sampleCat,
    by decide, by decide, by decide⟩

/-- C12: when the log file is read and its content does not parse in the Unix
date layout (an empty file included), the parse error is dropped and `date` is
the zero time, 0001-01-01 00:00:00 UTC.  For every reading of the clock from
0001-01-02 00:00:00 UTC on, which every reading of a system clock is (the
clocks count from 1601 or from 1970), the gate returns no error and finds the
log stale: the outcome of the run is that of the code from the prompt on, it
is never the "updated recently" refusal, and the calls after the read of the
log are those of the prompt. -/
theorem C12_unparsable_log_is_stale (w : World) (contents : String) (e : Errno)
    (hstat : w.statLog = none) (hopen : w.openLog = none)
    (hread : w.readLog = .ok contents) (hparse : w.timeParse contents = .error e)
    (hclock : Time.zero.unixNano + 24 * Hour ≤ w.nowCheck.unixNano) :
    gatePasses w
      ∧ (DownloadBulkData w).1 = (afterGate w).1
      ∧ (DownloadBulkData w).1 ≠ .ret (some errRecent)
      ∧ ∃ rest, (DownloadBulkData w).2 = .osStat logName :: .osOpen logName
          :: .readAllFile logName :: .fmtPrint (promptText ++ " [y/n]: ")
          :: .stdinReadString :: rest := by
  have hdate : parsedDate w contents = Time.zero := by simp [parsedDate, hparse]
  have hstale : ¬ Hours (w.nowCheck.Sub (parsedDate w contents)) < 24 := by
    rw [hdate, fresh_test_iff]
    omega
  have hrun := DownloadBulkData_read w contents hstat hopen hread
  rw [if_neg hstale] at hrun
  obtain ⟨rest, hrest⟩ := afterGate_trace_starts w
  refine ⟨Or.inr ⟨contents, hstat, hopen, hread, hstale⟩, by rw [hrun], ?_, ?_⟩
  · rw [hrun]
    exact afterGate_ne_recent w
  · exact ⟨rest ++ [.closeFile logName], by rw [hrun]; simp [hrest]⟩
/-- C12, at a run of November 2023 on an empty log file. -/
theorem C12_witness :
    gatePasses (emptyLogRun ⟨1700000000000000000⟩)
      ∧ (DownloadBulkData (emptyLogRun ⟨1700000000000000000⟩)).1
          = (afterGate (emptyLogRun ⟨1700000000000000000⟩)).1
      ∧ (DownloadBulkData (emptyLogRun ⟨1700000000000000000⟩)).1 ≠ .ret (some errRecent)
      ∧ ∃ rest, (DownloadBulkData (emptyLogRun ⟨1700000000000000000⟩)).2
          = .osStat logName :: .osOpen logName
          :: .readAllFile logName :: .fmtPrint (promptText ++ " [y/n]: ")
          :: .stdinReadString :: rest :=
  C12_unparsable_log_is_stale (emptyLogRun ⟨1700000000000000000⟩) ""
    parseError rfl rfl rfl rfl (by decide)
/-- C13: `DownloadFile` returns `nil` if and only if the GET succeeds, the
check of the destination path gives no error, the file is created and the copy
ends without error, and then the file was created and the whole body offered
to the copy; an error of the GET, of the path check, of the creation or of the
copy is the error returned; the status code of the response does not enter
the result or the calls. -/
theorem C13_DownloadFile_nil_iff_every_step_succeeds (path url : String) (env : FetchEnv) :
    ((DownloadFile path url env).1 = none ↔
        (∃ resp, env.get = .ok resp) ∧ (env.stat = none ∨ env.stat = some ENOENT)
          ∧ env.create = none ∧ env.copy = none)
      ∧ ((DownloadFile path url env).1 = none →
          ∃ resp, env.get = .ok resp ∧ Event.osCreate path ∈ (DownloadFile path url env).2
            ∧ Event.ioCopy path resp.Body ∈ (DownloadFile path url env).2)
      ∧ (∀ e, env.get = .error e → (DownloadFile path url env).1 = some (.Sys e))
      ∧ (∀ resp e, env.get = .ok resp → env.stat = some e → e ≠ ENOENT →
          (DownloadFile path url env).1 = some (.Sys e))
      ∧ (∀ resp e, env.get = .ok resp → (env.stat = none ∨ env.stat = some ENOENT) →
          env.create = some e → (DownloadFile path url env).1 = some (.Sys e))
      ∧ (∀ resp e, env.get = .ok resp → (env.stat = none ∨ env.stat = some ENOENT) →
          env.create = none → env.copy = some e →
          (DownloadFile path url env).1 = some (.Sys e))
      ∧ (∀ status1 status2 body,
          DownloadFile path url { env with get := .ok ⟨status1, body⟩ }
            = DownloadFile path url { env with get := .ok ⟨status2, body⟩ }) := by
  have hget_err : ∀ e, env.get = .error e → (DownloadFile path url env).1 = some (.Sys e) := by
    intro e hg
    unfold DownloadFile
    simp [hg]
  have hstat_err : ∀ resp e, env.get = .ok resp → env.stat = some e → e ≠ ENOENT →
      (DownloadFile path url env).1 = some (.Sys e) := by
    intro resp e hg hs hne
    unfold DownloadFile path_exists
    simp [hg, hs, sysErr, IsNotExist, hne]
  have hcreate_err : ∀ resp e, env.get = .ok resp →
      (env.stat = none ∨ env.stat = some ENOENT) → env.create = some e →
      (DownloadFile path url env).1 = some (.Sys e) := by
    intro resp e hg hs hc
    unfold DownloadFile path_exists
    rcases hs with hs | hs <;> simp [hg, hs, hc, sysErr, IsNotExist]
  have hcopy : ∀ resp, env.get = .ok resp →
      (env.stat = none ∨ env.stat = some ENOENT) → env.create = none →
      (DownloadFile path url env).1 = sysErr env.copy
        ∧ Event.osCreate path ∈ (DownloadFile path url env).2
        ∧ Event.ioCopy path resp.Body ∈ (DownloadFile path url env).2 := by
    intro resp hg hs hc
    unfold DownloadFile path_exists
    rcases hs with hs | hs <;> simp [hg, hs, hc, sysErr, IsNotExist]
  have hsteps : (DownloadFile path url env).1 = none →
      ∃ resp, env.get = .ok resp ∧ (env.stat = none ∨ env.stat = some ENOENT)
        ∧ env.create = none ∧ env.copy = none := by
    intro h
    cases hg : env.get with
    | error e => rw [hget_err e hg] at h; simp at h
    | ok resp =>
      have hs : env.stat = none ∨ env.stat = some ENOENT := by
        cases hst : env.stat with
        | none => exact Or.inl rfl
        | some c =>
          by_cases hc : c = ENOENT
          · subst hc; exact Or.inr rfl
          · rw [hstat_err resp c hg hst hc] at h; simp at h
      have hcr : env.create = none := by
        cases hc : env.create with
        | none => rfl
        | some c => rw [hcreate_err resp c hg hs hc] at h; simp at h
      have hcp : env.copy = none := by
        rw [(hcopy resp hg hs hcr).1] at h
        cases hc : env.copy with
        | none => rfl
        | some c => simp [hc, sysErr] at h
      exact ⟨resp, rfl, hs, hcr, hcp⟩
  refine ⟨⟨?_, ?_⟩, ?_, hget_err, hstat_err, hcreate_err, ?_, ?_⟩
  · intro h
    obtain ⟨resp, hg, hs, hcr, hcp⟩ := hsteps h
    exact ⟨⟨resp, hg⟩, hs, hcr, hcp⟩
  · rintro ⟨⟨resp, hg⟩, hs, hcr, hcp⟩
    rw [(hcopy resp hg hs hcr).1, hcp]
    rfl
  · intro h
    obtain ⟨resp, hg, hs, hcr, _⟩ := hsteps h
    exact ⟨resp, hg, (hcopy resp hg hs hcr).2⟩
  · intro resp e hg hs hcr hcp
    rw [(hcopy resp hg hs hcr).1, hcp]
    rfl
  · intro status1 status2 body
    rfl

/-- C13, at a fetch answered with status 404: the page is written to the file
and `nil` is returned. -/
theorem C13_witness :
    (((DownloadFile "D:/Scryfall/Rulings.json" "https://host/gone" notFoundFetch).1 = none ↔
        (∃ resp, notFoundFetch.get = .ok resp)
          ∧ (notFoundFetch.stat = none ∨ notFoundFetch.stat = some ENOENT)
          ∧ notFoundFetch.create = none ∧ notFoundFetch.copy = none)
      ∧ ((DownloadFile "D:/Scryfall/Rulings.json" "https://host/gone" notFoundFetch).1 = none →
          ∃ resp, notFoundFetch.get = .ok resp
            ∧ Event.osCreate "D:/Scryfall/Rulings.json"
                ∈ (DownloadFile "D:/Scryfall/Rulings.json" "https://host/gone" notFoundFetch).2
            ∧ Event.ioCopy "D:/Scryfall/Rulings.json" resp.Body
                ∈ (DownloadFile "D:/Scryfall/Rulings.json" "https://host/gone" notFoundFetch).2)
      ∧ (∀ e, notFoundFetch.get = .error e →
          (DownloadFile "D:/Scryfall/Rulings.json" "https://host/gone" notFoundFetch).1
            = some (.Sys e))
      ∧ (∀ resp e, notFoundFetch.get = .ok resp → notFoundFetch.stat = some e → e ≠ ENOENT →
          (DownloadFile "D:/Scryfall/Rulings.json" "https://host/gone" notFoundFetch).1
            = some (.Sys e))
      ∧ (∀ resp e, notFoundFetch.get = .ok resp
          → (notFoundFetch.stat = none ∨ notFoundFetch.stat = some ENOENT)
          → notFoundFetch.create = some e →
          (DownloadFile "D:/Scryfall/Rulings.json" "https://host/gone" notFoundFetch).1
            = some (.Sys e))
      ∧ (∀ resp e, notFoundFetch.get = .ok resp
          → (notFoundFetch.stat = none ∨ notFoundFetch.stat = some ENOENT)
          → notFoundFetch.create = none → notFoundFetch.copy = some e →
          (DownloadFile "D:/Scryfall/Rulings.json" "https://host/gone" notFoundFetch).1
            = some (.Sys e))
      ∧ (∀ status1 status2 body,
          DownloadFile "D:/Scryfall/Rulings.json" "https://host/gone"
              { notFoundFetch with get := .ok ⟨status1, body⟩ }
            = DownloadFile "D:/Scryfall/Rulings.json" "https://host/gone"
              { notFoundFetch with get := .ok ⟨status2, body⟩ }))
      ∧ DownloadFile "D:/Scryfall/Rulings.json" "https://host/gone" notFoundFetch = (none,
          [.callDownloadFile "D:/Scryfall/Rulings.json" "https://host/gone",
            .httpGet "https://host/gone", .osStat "D:/Scryfall/Rulings.json",
            .osCreate "D:/Scryfall/Rulings.json",
            .ioCopy "D:/Scryfall/Rulings.json" "Not Found",
            .closeFile "D:/Scryfall/Rulings.json", .closeBody "https://host/gone"]) :=
  ⟨C13_DownloadFile_nil_iff_every_step_succeeds "D:/Scryfall/Rulings.json" "https://host/gone"
    notFoundFetch, by decide⟩

end ScryGo
